import Mathlib

/-!
Verification development for `backend/controllers/AuthContoller.js`

A shallow embedding of the authentication controller: the symmetric key codec
(`encrypt` / `decrypt`), the account handlers and the admin handlers, followed
by the theorems that settle the specification's claims against them.

Conventions of the embedding

* A JavaScript string is the list of its UTF-16 code units (`JSString`), so
  that `.length` is `List.length` and unpaired surrogates exist.
* A `Buffer` is a list of bytes (naturals below 256).
* Library calls whose code is not part of the repository (AES-256-CBC, bcrypt,
  JWT signing and verification, the token helpers, the mail sender) are
  parameters of the handlers; the laws assumed of them are stated as
  hypotheses where a theorem needs them.
* A handler is a function from the database and the request to a response,
  the new database and the mails sent; a `throw` is the `error` side of
  `Except`. Request fields are strings or missing. Calls to the database and
  to the mail sender succeed, except where a fault is a parameter: the
  verification of the refresh token and the transaction of `removeTeamMember`.
-/

namespace AuthController

/-! ## Strings and buffers -/

/-- A JavaScript string, as the list of its UTF-16 code units. -/
abbrev JSString := List Nat

/-- A Node.js `Buffer`, as the list of its bytes. -/
abbrev Buffer := List Nat

/-- Every element is a UTF-16 code unit. -/
def IsJSString (s : JSString) : Prop := ∀ u ∈ s, u < 65536

/-- Every element is a byte. -/
def IsBytes (b : Buffer) : Prop := ∀ x ∈ b, x < 256

instance (s : JSString) : Decidable (IsJSString s) := by
  unfold IsJSString; infer_instance

instance (b : Buffer) : Decidable (IsBytes b) := by
  unfold IsBytes; infer_instance

/-- The code units of one Unicode scalar value. -/
def utf16Units (c : Nat) : JSString :=
  if c < 65536 then [c]
  else [55296 + (c - 65536) / 1024, 56320 + (c - 65536) % 1024]

/-- Code units of a list of characters. -/
def jsUnits : List Char → JSString
  | [] => []
  | c :: cs => utf16Units c.toNat ++ jsUnits cs

/-- The JavaScript string written by a literal of the source. -/
def js (s : String) : JSString := jsUnits s.toList

/-- A high (leading) surrogate, `0xD800 .. 0xDBFF`. -/
def isHighSurrogate (u : Nat) : Bool := 55296 ≤ u && u < 56320

/-- A low (trailing) surrogate, `0xDC00 .. 0xDFFF`. -/
def isLowSurrogate (u : Nat) : Bool := 56320 ≤ u && u < 57344

/-- A well-formed UTF-16 string: every code unit is below `0x10000` and every
surrogate is half of a high-low pair. -/
def WellFormed : JSString → Bool
  | [] => true
  | u :: rest =>
    if isHighSurrogate u then
      match rest with
      | v :: rest2 => isLowSurrogate v && WellFormed rest2
      | [] => false
    else if isLowSurrogate u then false
    else decide (u < 65536) && WellFormed rest

/-- UTF-8 bytes of one code point. -/
def utf8EncodeCodePoint (c : Nat) : Buffer :=
  if c < 128 then [c]
  else if c < 2048 then [192 + c / 64, 128 + c % 64]
  else if c < 65536 then [224 + c / 4096, 128 + c / 64 % 64, 128 + c % 64]
  else [240 + c / 262144, 128 + c / 4096 % 64, 128 + c / 64 % 64, 128 + c % 64]

/-- The bytes Node writes for a string in the `utf8` encoding
(`Buffer.from(str)`, `cipher.update(str)`): a surrogate pair becomes the four
bytes of its code point, an unpaired surrogate becomes U+FFFD (`EF BF BD`). -/
def utf8Write : JSString → Buffer
  | [] => []
  | u :: rest =>
    if isHighSurrogate u then
      match rest with
      | v :: rest2 =>
        if isLowSurrogate v then
          utf8EncodeCodePoint (65536 + (u - 55296) * 1024 + (v - 56320)) ++ utf8Write rest2
        else [239, 191, 189] ++ utf8Write (v :: rest2)
      | [] => [239, 191, 189]
    else if isLowSurrogate u then [239, 191, 189] ++ utf8Write rest
    else utf8EncodeCodePoint u ++ utf8Write rest

/-- State of the UTF-8 decoder between two bytes: the code point collected so
far, the continuation bytes still needed, and the bounds of the next byte. -/
structure Utf8State where
  codePoint : Nat
  needed : Nat
  lower : Nat
  upper : Nat
deriving DecidableEq, Repr

/-- The decoder's state outside a sequence. -/
def Utf8State.idle : Utf8State := ⟨0, 0, 128, 191⟩

/-- What the decoder does with a byte that starts a sequence: the code points
it emits and the state it goes to. -/
def utf8Lead (b : Nat) : List Nat × Utf8State :=
  if b < 128 then ([b], Utf8State.idle)
  else if 194 ≤ b ∧ b ≤ 223 then ([], ⟨b % 32, 1, 128, 191⟩)
  else if 224 ≤ b ∧ b ≤ 239 then
    ([], ⟨b % 16, 2, if b = 224 then 160 else 128, if b = 237 then 159 else 191⟩)
  else if 240 ≤ b ∧ b ≤ 244 then
    ([], ⟨b % 8, 3, if b = 240 then 144 else 128, if b = 244 then 143 else 191⟩)
  else ([65533], Utf8State.idle)

/-- The code points of a byte sequence read as UTF-8, every ill-formed
subsequence replaced by U+FFFD, the byte that breaks a sequence being read
again as the start of the next one. -/
def utf8DecodeFrom : Utf8State → Buffer → List Nat
  | st, [] => if st.needed = 0 then [] else [65533]
  | st, b :: rest =>
    if st.needed = 0 then
      (utf8Lead b).1 ++ utf8DecodeFrom (utf8Lead b).2 rest
    else if st.lower ≤ b ∧ b ≤ st.upper then
      if st.needed = 1 then
        (st.codePoint * 64 + b % 64) :: utf8DecodeFrom Utf8State.idle rest
      else
        utf8DecodeFrom ⟨st.codePoint * 64 + b % 64, st.needed - 1, 128, 191⟩ rest
    else
      65533 :: ((utf8Lead b).1 ++ utf8DecodeFrom (utf8Lead b).2 rest)

/-- Code units of a list of code points. -/
def utf16OfCodePoints : List Nat → JSString
  | [] => []
  | c :: cs => utf16Units c ++ utf16OfCodePoints cs

/-- The string `buf.toString()` gives: the buffer read as UTF-8. -/
def utf8ToString (b : Buffer) : JSString :=
  utf16OfCodePoints (utf8DecodeFrom Utf8State.idle b)

/-- One lower-case hexadecimal digit, as a code unit. -/
def hexDigit (n : Nat) : Nat := if n < 10 then 48 + n else 87 + n

/-- The string `buf.toString('hex')` gives: two lower-case digits a byte. -/
def toHex : Buffer → JSString
  | [] => []
  | b :: rest => hexDigit (b / 16) :: hexDigit (b % 16) :: toHex rest

/-- The value the hex decoder of Node gives a code unit: the decoder looks at
the low byte of the code unit only, so that `U+0131` reads as the digit `1`;
`none` when that byte is no hexadecimal digit. -/
def unhex (u : Nat) : Option Nat :=
  if 48 ≤ u % 256 ∧ u % 256 ≤ 57 then some (u % 256 - 48)
  else if 97 ≤ u % 256 ∧ u % 256 ≤ 102 then some (u % 256 - 87)
  else if 65 ≤ u % 256 ∧ u % 256 ≤ 70 then some (u % 256 - 55)
  else none

/-- The buffer `Buffer.from(str, 'hex')` gives: pairs of code units are
decoded, each by its low byte, until the first pair that is not two
hexadecimal digits; what follows, and an odd last character, is dropped. It
never throws. -/
def fromHex : JSString → Buffer
  | a :: b :: rest =>
    match unhex a, unhex b with
    | some x, some y => (x * 16 + y) :: fromHex rest
    | _, _ => []
  | _ => []

/-- The parts `str.split(sep)` gives for a one-character separator. -/
def split (sep : Nat) : JSString → List JSString
  | [] => [[]]
  | c :: cs =>
    if c = sep then [] :: split sep cs
    else
      match split sep cs with
      | p :: ps => (c :: p) :: ps
      | [] => [[c]]

/-- The string `parts.join(sep)` gives for a one-character separator. -/
def join (sep : Nat) : List JSString → JSString
  | [] => []
  | [p] => p
  | p :: q :: ps => p ++ sep :: join sep (q :: ps)

/-- JavaScript truthiness of a string: it is not empty. -/
def truthy (s : JSString) : Bool := !s.isEmpty

/-! ## The symmetric key codec -/

/-- A thrown JavaScript error: the `name` and the `message` the handlers look
at. -/
structure JsError where
  name : JSString
  message : JSString
deriving DecidableEq, Repr

/-- The error of a failed library call. -/
def JsError.generic : JsError := ⟨js "Error", []⟩

/-- The AES-256-CBC primitive of Node's `crypto` module, for a key and an IV of
the right lengths: `cipher` is `update` followed by `final` of
`createCipheriv`, `decipher` the same of `createDecipheriv`, `none` when
`final` throws. -/
structure Aes256Cbc where
  cipher : (key iv plaintext : Buffer) → Buffer
  decipher : (key iv ciphertext : Buffer) → Option Buffer

/-- What is assumed of AES-256-CBC: its output is bytes, deciphering inverts
enciphering under the same key and IV, and a ciphertext that is empty or not
a whole number of 16-byte blocks makes `final` throw. -/
structure Aes256Cbc.Lawful (A : Aes256Cbc) : Prop where
  bytes : ∀ key iv p, IsBytes p → IsBytes (A.cipher key iv p)
  inverts : ∀ key iv p, key.length = 32 → iv.length = 16 → IsBytes p →
    A.decipher key iv (A.cipher key iv p) = some p
  blocks : ∀ key iv c, (c.length = 0 ∨ c.length % 16 ≠ 0) → A.decipher key iv c = none

/-- The fallback of `ENCRYPTION_KEY` when the environment sets none. -/
def defaultEncryptionKey : JSString := js "your-secure-encryption-key-exactly-32-b"

/-- The constant `ENCRYPTION_KEY`: `process.env.ENCRYPTION_KEY || '...'`. -/
def ENCRYPTION_KEY (env : Option JSString) : JSString :=
  match env with
  | some s => if truthy s then s else defaultEncryptionKey
  | none => defaultEncryptionKey

/-- The constant `IV_LENGTH`. -/
def IV_LENGTH : Nat := 16

/-- The call `source.copy(target, 0, 0, n)`: the first `n` bytes of `source`
overwrite the start of `target`. -/
def bufferCopy (source target : Buffer) (n : Nat) : Buffer :=
  source.take n ++ target.drop (source.take n).length

/-- The key both `encrypt` and `decrypt` build from the configured secret:
the secret's bytes, truncated or zero-padded to 32 bytes. -/
def deriveKey (secret : Buffer) : Buffer :=
  if secret.length ≠ 32 then
    bufferCopy secret (List.replicate 32 0) (min secret.length 32)
  else secret

/-- The call `crypto.createCipheriv('aes-256-cbc', key, iv)` followed by
`update` and `final`; the creation throws on a key or IV of the wrong length. -/
def runCipher (A : Aes256Cbc) (key iv data : Buffer) : Except JsError Buffer :=
  if key.length = 32 ∧ iv.length = 16 then .ok (A.cipher key iv data)
  else .error JsError.generic

/-- The call `crypto.createDecipheriv('aes-256-cbc', key, iv)` followed by
`update` and `final`. -/
def runDecipher (A : Aes256Cbc) (key iv data : Buffer) : Except JsError Buffer :=
  if key.length = 32 ∧ iv.length = 16 then
    match A.decipher key iv data with
    | some p => .ok p
    | none => .error JsError.generic
  else .error JsError.generic

/-- The function `encrypt(text)`; `iv` is what `crypto.randomBytes(IV_LENGTH)`
returned in this call. The `catch` logs and throws the error again. -/
def encrypt (A : Aes256Cbc) (env : Option JSString) (iv : Buffer) (text : JSString) :
    Except JsError JSString :=
  let key := deriveKey (utf8Write (ENCRYPTION_KEY env))
  match runCipher A key iv (utf8Write text) with
  | .ok encrypted => .ok (toHex iv ++ 58 :: toHex encrypted)
  | .error err => .error err

/-- The body of the `try` of `decrypt(text)`. -/
def decryptTry (A : Aes256Cbc) (env : Option JSString) (text : JSString) :
    Except JsError JSString :=
  if !truthy text || !text.contains 58 then .ok []
  else
    let key := deriveKey (utf8Write (ENCRYPTION_KEY env))
    let textParts := split 58 text
    let iv := fromHex (textParts.headD [])
    let encryptedText := fromHex (join 58 textParts.tail)
    if iv.length ≠ IV_LENGTH then .ok []
    else
      match runDecipher A key iv encryptedText with
      | .ok decrypted => .ok (utf8ToString decrypted)
      | .error err => .error err

/-- The function `decrypt(text)`: the `catch` logs and returns `''`. -/
def decrypt (A : Aes256Cbc) (env : Option JSString) (text : JSString) :
    Except JsError JSString :=
  match decryptTry A env text with
  | .ok v => .ok v
  | .error _ => .ok []

/-- The part of a string before its first `:` (all of it when it has none). -/
def beforeColon (text : JSString) : JSString := text.takeWhile (· != 58)

/-- The part of a string after its first `:` (empty when it has none). -/
def afterColon (text : JSString) : JSString := (text.dropWhile (· != 58)).drop 1

/-- PKCS#7 padding to a whole number of 16-byte blocks. -/
def pkcs7Pad (p : Buffer) : Buffer :=
  p ++ List.replicate (16 - p.length % 16) (16 - p.length % 16)

/-- Removal of PKCS#7 padding, `none` when the input is empty, not a whole
number of blocks, or does not end in a padding. -/
def pkcs7Unpad (c : Buffer) : Option Buffer :=
  if c.length = 0 ∨ c.length % 16 ≠ 0 then none
  else
    let n := c.getLastD 0
    if 1 ≤ n ∧ n ≤ 16 ∧ c.drop (c.length - n) = List.replicate n n then
      some (c.take (c.length - n))
    else none

/-- A stand-in for the block cipher, which pads and keeps the bytes: it has
the laws assumed of AES-256-CBC and shows that they can be met. -/
def paddingCipher : Aes256Cbc where
  cipher := fun _ _ p => pkcs7Pad p
  decipher := fun _ _ c => pkcs7Unpad c

/-! ## Documents, collections and responses -/

/-- An `ObjectId`. -/
abbrev Id := Nat

/-- A plain JavaScript object whose values are strings, as the list of its
entries in the order `Object.entries` gives them; the keys are distinct. -/
abbrev StrObj := List (JSString × JSString)

/-- Modelled from the spec: the `User` document of `models/User`, which is not
part of the sources. The fields are those the specification lists and the
controller reads or writes; a missing field is `none`. Times are milliseconds
since the epoch. -/
structure User where
  id : Id
  name : JSString
  email : JSString
  password : Option JSString
  role : JSString
  department : Option JSString
  isVerified : Bool
  verificationToken : Option JSString
  verificationTokenExpiresAt : Option Nat
  resetPasswordToken : Option JSString
  resetPasswordExpiresAt : Option Nat
  profilePic : Option JSString
  apiKeys : Option StrObj
  lastActive : Option Nat
  createdAt : Nat
deriving DecidableEq, Repr

/-- Modelled from the spec: a `ChatHistory` record, of which the controller
uses the owner only. -/
structure ChatHistory where
  id : Id
  userId : Id
deriving DecidableEq, Repr

/-- Modelled from the spec: a `UserGptAssignment` record. -/
structure UserGptAssignment where
  id : Id
  userId : Id
  gptId : Id
deriving DecidableEq, Repr

/-- Modelled from the spec: a `UserFavorite` record. -/
structure UserFavorite where
  id : Id
  userId : Id
  gptId : Id
deriving DecidableEq, Repr

/-- The four collections the controller touches. -/
structure Db where
  users : List User
  chatHistories : List ChatHistory
  assignments : List UserGptAssignment
  favorites : List UserFavorite
deriving DecidableEq, Repr

/-- A JSON value of a response body. An `ObjectId` and a date are kept as
such instead of the strings they are serialised to. -/
inductive Json where
  | null
  | bool (b : Bool)
  | num (n : Int)
  | str (s : JSString)
  | oid (i : Id)
  | date (t : Nat)
  | arr (items : List Json)
  | obj (fields : List (JSString × Json))

/-- An object field whose value may be `undefined`: `JSON.stringify` leaves
such a field out. -/
def optField (key : String) (value : Option Json) : List (JSString × Json) :=
  match value with
  | some v => [(js key, v)]
  | none => []

/-- The value of a field of a JSON object, `none` when the value is no object
or has no such field. -/
def Json.field (key : JSString) : Json → Option Json
  | .obj fields => fields.lookup key
  | _ => none

/-- What a handler does to the cookies of the response. -/
inductive CookieOp where
  | set (name value : JSString)
  | clear (name : JSString)
deriving DecidableEq, Repr

/-- The response a handler sends: status, JSON body and cookie operations. -/
structure Response where
  status : Nat
  body : Json
  cookies : List CookieOp

/-- The call `res.status(code).json(body)`. -/
def Response.json (status : Nat) (body : Json) : Response := ⟨status, body, []⟩

/-- A mail handed to the mail sender. -/
inductive Email where
  | verification (email code : JSString)
  | welcome (email name : JSString)
  | resetPassword (email url : JSString)
  | resetSuccess (email : JSString)
deriving DecidableEq, Repr

/-- What a handler leaves behind: the response, the database and the mails it
had sent. -/
structure Outcome where
  response : Response
  db : Db
  emails : List Email

/-- The caller the authentication middleware puts in `req.user`. -/
structure Caller where
  id : Id
  email : JSString
  role : JSString
deriving DecidableEq, Repr

/-- The libraries the controller calls and whose code is not part of the
repository, and the token helper of `lib/utilis`. -/
structure Lib where
  aes : Aes256Cbc
  -- The configured `process.env.ENCRYPTION_KEY`.
  encryptionKey : Option JSString
  -- The call `bcrypt.hash(password, rounds)`.
  bcryptHash : JSString → Nat → JSString
  -- The call `bcrypt.compare(password, hash)`.
  bcryptCompare : JSString → JSString → Bool
  -- The helper `generateAccessToken(userId)`.
  generateAccessToken : Id → JSString
  -- The refresh token `generateRefreshTokenAndSetCookie` signs for a user.
  signRefreshToken : Id → JSString
  -- The call `jwt.verify(token, REFRESH_TOKEN_SECRET)`: the `userId` of the
  -- payload, or the error thrown.
  jwtVerify : JSString → Except JsError Id
  -- The method `String.prototype.toLowerCase`.
  toLowerCase : JSString → JSString
  -- The rounding of the double arithmetic of the engine: the double that an
  -- operation returns for its exact result.
  roundDouble : ℚ → ℚ

/-- JavaScript truthiness of a request field that is a string or missing. -/
def truthyOpt : Option JSString → Bool
  | some s => truthy s
  | none => false

/-- The query `User.findOne({ email })`. -/
def findOneByEmail (users : List User) (email : JSString) : Option User :=
  users.find? (fun u => u.email == email)

/-- The query `User.findById(id)`. -/
def findById (users : List User) (id : Id) : Option User :=
  users.find? (fun u => u.id == id)

/-- The call `user.save()` on a document that was read from the collection:
the stored document with that `_id` is replaced. -/
def saveUser (users : List User) (user : User) : List User :=
  users.map (fun u => if u.id = user.id then user else u)

/-- The plain object of a user document as a default query loads it: the
fields `password` and `apiKeys` are loaded only on `select('+...')`. -/
def userDoc (u : User) : List (JSString × Json) :=
  [(js "_id", .oid u.id), (js "name", .str u.name), (js "email", .str u.email),
    (js "role", .str u.role)]
  ++ optField "department" (u.department.map .str)
  ++ [(js "isVerified", .bool u.isVerified)]
  ++ optField "verificationToken" (u.verificationToken.map .str)
  ++ optField "verificationTokenExpiresAt" (u.verificationTokenExpiresAt.map .date)
  ++ optField "resetPasswordToken" (u.resetPasswordToken.map .str)
  ++ optField "resetPasswordExpiresAt" (u.resetPasswordExpiresAt.map .date)
  ++ optField "profilePic" (u.profilePic.map .str)
  ++ optField "lastActive" (u.lastActive.map .date)
  ++ [(js "createdAt", .date u.createdAt)]

/-- Modelled from the spec: `generateRefreshTokenAndSetCookie(res, userId)` of
`lib/utilis`, "issueRefreshToken(userId) -> signed_token plus side effect: sets
it as an http-only, secure, same-site cookie". The cookie is the one
`refreshTokenController` reads, `refreshToken`. -/
def generateRefreshTokenAndSetCookie (lib : Lib) (cookies : List CookieOp) (userId : Id) :
    JSString × List CookieOp :=
  (lib.signRefreshToken userId,
    cookies ++ [CookieOp.set (js "refreshToken") (lib.signRefreshToken userId)])

/-- Modelled from the spec: `clearRefreshTokenCookie(res)` of `lib/utilis`,
"side effect only, removes the cookie". -/
def clearRefreshTokenCookie (cookies : List CookieOp) : List CookieOp :=
  cookies ++ [CookieOp.clear (js "refreshToken")]

/-! ## Account handlers -/

/-- Decimal digits of a number, most significant first, in front of `acc`. -/
def decimalDigits : Nat → Nat → JSString → JSString
  | 0, _, acc => acc
  | fuel + 1, n, acc =>
    if n < 10 then (48 + n) :: acc
    else decimalDigits fuel (n / 10) ((48 + n % 10) :: acc)

/-- The string `n.toString()` of a non-negative integer. -/
def numberToString (n : Nat) : JSString := decimalDigits (n + 1) n []

/-- The verification code of `Signup`,
`Math.floor(100000 + Math.random() * 900000).toString()`, for the double
`random` that `Math.random()` returned, in the double arithmetic of
JavaScript: `fl` rounds the exact result of the product and of the sum to a
double; `Math.floor` of a double is exact. -/
def verificationCode (fl : ℚ → ℚ) (random : ℚ) : JSString :=
  numberToString (Int.toNat ⌊fl (100000 + fl (random * 900000))⌋)

/-- The body of a `Signup` request and the uploaded file name, if any. -/
structure SignupReq where
  name : Option JSString
  email : Option JSString
  password : Option JSString
  file : Option JSString
deriving DecidableEq, Repr

/-- The document `new User({...})` of `Signup`; the fields it does not set take
the defaults of the schema (modelled from the spec: role `user`, not verified). -/
def newSignupUser (lib : Lib) (now : Nat) (random : ℚ) (newId : Id)
    (name email password : JSString) (file : Option JSString) : User :=
  { id := newId
    name := name
    email := email
    password := some (lib.bcryptHash password 10)
    role := js "user"
    department := none
    isVerified := false
    verificationToken := some (verificationCode lib.roundDouble random)
    verificationTokenExpiresAt := some (now + 24 * 60 * 60 * 1000)
    resetPasswordToken := none
    resetPasswordExpiresAt := none
    profilePic := file.map (fun f => js "/uploads/profilePics/" ++ f)
    apiKeys := none
    lastActive := none
    createdAt := now }

/-- The handler `Signup`. `now` is `Date.now()`, `random` what `Math.random()`
returned, `newId` the `_id` the new document gets. -/
def Signup (lib : Lib) (now : Nat) (random : ℚ) (newId : Id) (db : Db) (req : SignupReq) :
    Outcome :=
  if !truthyOpt req.name || !truthyOpt req.email || !truthyOpt req.password then
    ⟨Response.json 400 (.obj [(js "success", .bool false),
      (js "message", .str (js "All fields are required"))]), db, []⟩
  else
    let name := req.name.getD []
    let email := req.email.getD []
    let password := req.password.getD []
    match findOneByEmail db.users email with
    | some _ =>
      ⟨Response.json 400 (.obj [(js "success", .bool false),
        (js "message", .str (js "User already exists"))]), db, []⟩
    | none =>
      if password.length < 6 then
        ⟨Response.json 400 (.obj [(js "success", .bool false),
          (js "message", .str (js "Password must be at least 6 characters long"))]), db, []⟩
      else
        let newUser := newSignupUser lib now random newId name email password req.file
        ⟨Response.json 201 (.obj [(js "success", .bool true),
          (js "message", .str (js "Signup successful. Please verify your email."))]),
          { db with users := db.users ++ [newUser] },
          [Email.verification email (verificationCode lib.roundDouble random)]⟩

/-- The query of `verifyEmail`: `User.findOne({ verificationToken: code,
verificationTokenExpiresAt: { $gt: Date.now() } })`. -/
def findByVerificationCode (users : List User) (code : JSString) (now : Nat) : Option User :=
  users.find? (fun u => u.verificationToken == some code
    && match u.verificationTokenExpiresAt with
       | some expiry => decide (now < expiry)
       | none => false)

/-- The handler `verifyEmail`, for the `code` of the request body. -/
def verifyEmail (now : Nat) (db : Db) (code : JSString) : Outcome :=
  match findByVerificationCode db.users code now with
  | none =>
    ⟨Response.json 400 (.obj [(js "success", .bool false),
      (js "message", .str (js "Invalid or expired verification code"))]), db, []⟩
  | some found =>
    let user := { found with
      isVerified := true, verificationToken := none, verificationTokenExpiresAt := none }
    ⟨Response.json 200 (.obj [(js "success", .bool true),
      (js "message", .str (js "Email verified successfully. Welcome to the app!")),
      (js "user", .obj (userDoc user))]),
      { db with users := saveUser db.users user },
      [Email.welcome user.email user.name]⟩

/-- The body of a `Login` request. -/
structure LoginReq where
  email : Option JSString
  password : Option JSString
deriving DecidableEq, Repr

/-- The response of `Login` to every failed check of the credentials. -/
def invalidCredentials : Response :=
  Response.json 400 (.obj [(js "success", .bool false),
    (js "message", .str (js "Invalid credentials"))])

/-- The handler `Login`; `now` is `new Date()`. -/
def Login (lib : Lib) (now : Nat) (db : Db) (req : LoginReq) : Outcome :=
  if !truthyOpt req.email || !truthyOpt req.password then
    ⟨Response.json 400 (.obj [(js "success", .bool false),
      (js "message", .str (js "Email and password are required"))]), db, []⟩
  else
    let email := req.email.getD []
    let password := req.password.getD []
    match findOneByEmail db.users email with
    | none => ⟨invalidCredentials, db, []⟩
    | some found =>
      if !truthyOpt found.password then ⟨invalidCredentials, db, []⟩
      else if !lib.bcryptCompare password (found.password.getD []) then
        ⟨invalidCredentials, db, []⟩
      else
        let accessToken := lib.generateAccessToken found.id
        let (refreshToken, cookies) := generateRefreshTokenAndSetCookie lib [] found.id
        let user := { found with lastActive := some now }
        ⟨⟨200, .obj [(js "success", .bool true),
            (js "message", .str (js "Login successful")),
            (js "accessToken", .str accessToken),
            (js "refreshToken", .str refreshToken),
            (js "user", .obj ([(js "_id", .oid user.id), (js "name", .str user.name),
              (js "email", .str user.email)]
              ++ optField "profilePic" (user.profilePic.map .str)
              ++ [(js "role", .str user.role), (js "isVerified", .bool user.isVerified)]))],
          cookies⟩,
          { db with users := saveUser db.users user }, []⟩

/-- The handler `Logout`. -/
def Logout (db : Db) : Outcome :=
  ⟨⟨200, .obj [(js "success", .bool true), (js "message", .str (js "Logged out successfully"))],
    clearRefreshTokenCookie []⟩, db, []⟩

/-- The handler `refreshTokenController`, for the value of the cookie
`refreshToken`; `now` is `new Date()`. -/
def refreshTokenController (lib : Lib) (now : Nat) (db : Db) (cookie : Option JSString) :
    Outcome :=
  if !truthyOpt cookie then
    ⟨Response.json 401 (.obj [(js "message", .str (js "Refresh token not found"))]), db, []⟩
  else
    match lib.jwtVerify (cookie.getD []) with
    | .ok userId =>
      match findById db.users userId with
      | none =>
        ⟨Response.json 401 (.obj [(js "message", .str (js "User not found for refresh token"))]),
          db, []⟩
      | some found =>
        let newAccessToken := lib.generateAccessToken userId
        let user := { found with lastActive := some now }
        ⟨Response.json 200 (.obj [(js "accessToken", .str newAccessToken)]),
          { db with users := saveUser db.users user }, []⟩
    | .error error =>
      if error.name = js "JsonWebTokenError" ∨ error.name = js "TokenExpiredError" then
        ⟨⟨403, .obj [(js "message", .str (js "Invalid or expired refresh token"))],
          clearRefreshTokenCookie []⟩, db, []⟩
      else
        ⟨⟨500, .obj [(js "message", .str (js "Server error during token refresh"))],
          clearRefreshTokenCookie []⟩, db, []⟩

/-- The end of `updateUserProfile`, after the email check: the name is set,
the document saved and read again. -/
def updateUserProfileSave (caller : Caller) (db : Db) (user : User) (name : Option JSString) :
    Outcome :=
  let user := if truthyOpt name then { user with name := name.getD [] } else user
  let users := saveUser db.users user
  ⟨Response.json 200 (.obj [(js "success", .bool true),
    (js "message", .str (js "Profile updated successfully.")),
    (js "user", match findById users caller.id with
      | some updatedUser => .obj (userDoc updatedUser)
      | none => .null)]),
    { db with users := users }, []⟩

/-- The handler `updateUserProfile`, for the `name` and `email` of the body. -/
def updateUserProfile (caller : Caller) (db : Db) (name email : Option JSString) : Outcome :=
  if !truthyOpt name && !truthyOpt email then
    ⟨Response.json 400 (.obj [(js "success", .bool false),
      (js "message", .str (js "Please provide name or email to update."))]), db, []⟩
  else
    match findById db.users caller.id with
    | none =>
      ⟨Response.json 404 (.obj [(js "success", .bool false),
        (js "message", .str (js "User not found."))]), db, []⟩
    | some user =>
      if truthyOpt email && email.getD [] != user.email then
        match findOneByEmail db.users (email.getD []) with
        | some _ =>
          ⟨Response.json 400 (.obj [(js "success", .bool false),
            (js "message", .str (js "Email address already in use."))]), db, []⟩
        | none => updateUserProfileSave caller db { user with email := email.getD [] } name
      else updateUserProfileSave caller db user name

/-! ## Admin handlers -/

/-- The test `req.user.role !== 'admin'`. -/
def notAdmin (caller : Caller) : Bool := caller.role != js "admin"

/-- The order of `sort({ createdAt: -1 })`: most recently created first. -/
def newerFirst (a b : User) : Prop := b.createdAt ≤ a.createdAt

instance : DecidableRel newerFirst := fun a b => inferInstanceAs (Decidable (b.createdAt ≤ a.createdAt))

/-- The handler `getAllUsers`. -/
def getAllUsers (caller : Caller) (db : Db) : Outcome :=
  if notAdmin caller then
    ⟨Response.json 403 (.obj [(js "message",
      .str (js "Not authorized to access this resource"))]), db, []⟩
  else
    ⟨Response.json 200 (.obj [(js "success", .bool true),
      (js "users", .arr ((db.users.insertionSort newerFirst).map (fun u => .obj (userDoc u))))]),
      db, []⟩

/-- The faults of the database during the transaction of `removeTeamMember`:
for each of the four deletions and for the commit, the error it fails with,
if it fails. -/
structure TxFaults where
  chatHistory : Option JsError
  gptAssignments : Option JsError
  favorites : Option JsError
  user : Option JsError
  commit : Option JsError
deriving DecidableEq, Repr

/-- No fault. -/
def TxFaults.none : TxFaults := ⟨Option.none, Option.none, Option.none, Option.none, Option.none⟩

/-- The result object of `deleteMany`. -/
def deleteResult (deleted : Nat) : Json :=
  .obj [(js "acknowledged", .bool true), (js "deletedCount", .num deleted)]

/-- The handler `removeTeamMember`, for the `userId` of the route. The four
deletions run in one transaction; the response of the success case is sent
inside the transaction, before its commit. -/
def removeTeamMember (faults : TxFaults) (caller : Caller) (db : Db) (userId : Id) : Outcome :=
  if notAdmin caller then
    ⟨Response.json 403 (.obj [(js "success", .bool false),
      (js "message", .str (js "Only admins can remove team members"))]), db, []⟩
  else
    match findById db.users userId with
    | none =>
      ⟨Response.json 404 (.obj [(js "success", .bool false),
        (js "message", .str (js "User not found"))]), db, []⟩
    | some _ =>
      match faults.chatHistory <|> faults.gptAssignments <|> faults.favorites <|> faults.user with
      | some error =>
        ⟨Response.json 500 (.obj [(js "success", .bool false),
          (js "message", .str (js "Failed to remove team member")),
          (js "error", .str error.message)]), db, []⟩
      | none =>
        let sent := Response.json 200 (.obj [(js "success", .bool true),
          (js "message", .str (js "User and all associated data removed successfully")),
          (js "deletionResults", .obj [
            (js "chatHistory",
              deleteResult (db.chatHistories.filter (fun r => r.userId == userId)).length),
            (js "gptAssignments",
              deleteResult (db.assignments.filter (fun r => r.userId == userId)).length),
            (js "favorites",
              deleteResult (db.favorites.filter (fun r => r.userId == userId)).length),
            (js "user", .bool true)])])
        match faults.commit with
        | some _ => ⟨sent, db, []⟩
        | none =>
          ⟨sent,
            { users := db.users.filter (fun u => u.id != userId)
              chatHistories := db.chatHistories.filter (fun r => r.userId != userId)
              assignments := db.assignments.filter (fun r => r.userId != userId)
              favorites := db.favorites.filter (fun r => r.userId != userId) }, []⟩

/-- White space that `parseInt` skips in front of a number. -/
def isWhiteSpace (u : Nat) : Bool :=
  u == 9 || u == 10 || u == 11 || u == 12 || u == 13 || u == 32 || u == 160 || u == 5760
    || (8192 ≤ u && u ≤ 8202) || u == 8232 || u == 8233 || u == 8239 || u == 8287
    || u == 12288 || u == 65279

/-- The value of the longest run of decimal digits a string starts with, and
whether there is such a digit. -/
def leadingDigits : JSString → Nat → Bool → Nat × Bool
  | [], acc, seen => (acc, seen)
  | u :: rest, acc, seen =>
    if 48 ≤ u ∧ u ≤ 57 then leadingDigits rest (acc * 10 + (u - 48)) true
    else (acc, seen)

/-- The sign and the digits that `parseInt(value, 10)` reads of a query
parameter, as the integer they denote; `none` when there is no digit. -/
def parseIntDigits (value : Option JSString) : Option Int :=
  match value with
  | none => none
  | some s =>
    match s.dropWhile isWhiteSpace with
    | 45 :: rest =>
      match leadingDigits rest 0 false with
      | (n, true) => some (-(n : Int))
      | (_, false) => none
    | 43 :: rest =>
      match leadingDigits rest 0 false with
      | (n, true) => some (n : Int)
      | (_, false) => none
    | rest =>
      match leadingDigits rest 0 false with
      | (n, true) => some (n : Int)
      | (_, false) => none

/-- The bound `2^53` up to which every integer is a double. -/
def maxExactInteger : Nat := 9007199254740992

/-- An integer as a JavaScript number: `NaN`, an integer of absolute value at
most `2^53`, which a double holds exactly, or a double beyond that bound,
which need not be the integer it was made from and is not followed further. -/
inductive JsInteger where
  | nan
  | exact (n : Int)
  | beyond
deriving DecidableEq, Repr

/-- The Number value of an integer. -/
def toJsInteger (n : Int) : JsInteger :=
  if n.natAbs ≤ maxExactInteger then .exact n else .beyond

/-- The call `parseInt(value, 10)` on a query parameter: the Number value of
the integer that the sign and the digits denote, `NaN` without a digit. -/
def parseInt10 (value : Option JSString) : JsInteger :=
  match parseIntDigits value with
  | some n => toJsInteger n
  | none => .nan

/-- The expression `number || fallback`: `NaN` and `0` are falsy. -/
def orElse (value : JsInteger) (fallback : Int) : JsInteger :=
  match value with
  | .exact n => if n = 0 then .exact fallback else .exact n
  | .nan => .exact fallback
  | .beyond => .beyond

/-- The count `gptCountMap[user._id] || 0` of the grouped aggregation: the
number of assignments of a user. -/
def gptCount (assignments : List UserGptAssignment) (userId : Id) : Nat :=
  (assignments.filter (fun a => a.userId == userId)).length

/-- The page of `getUsersWithGptCounts` for a `page` and a `limit` that are
exact integers, as is `page - 1` and `skip`. A negative `skip` is refused by
the database with `skipError`; of a negative `limit` the driver takes the
absolute value. -/
def usersPage (skipError : JsError) (caller : Caller) (db : Db) (page limit : Int) : Outcome :=
  let skip := (page - 1) * limit
  if skip < 0 then
    ⟨Response.json 500 (.obj [(js "success", .bool false),
      (js "message", .str skipError.message)]), db, []⟩
  else
    let others := db.users.filter (fun u => u.id != caller.id)
    let total := others.length
    let users := ((others.insertionSort newerFirst).drop skip.toNat).take limit.natAbs
    let usersWithCounts := users.map (fun u => Json.obj (
      [(js "_id", .oid u.id), (js "name", .str u.name), (js "email", .str u.email),
        (js "role", .str u.role), (js "createdAt", .date u.createdAt)]
      ++ optField "lastActive" (u.lastActive.map .date)
      ++ [(js "gptCount", .num (gptCount db.assignments u.id))]))
    ⟨Response.json 200 (.obj [(js "success", .bool true),
      (js "users", .arr usersWithCounts),
      (js "total", .num total),
      (js "page", .num page),
      (js "limit", .num limit)]), db, []⟩

/-- The handler `getUsersWithGptCounts`, for the `page` and `limit` of the
query. The numbers of JavaScript are doubles: when `page`, `limit`, `page - 1`
or `skip` is beyond `2^53` the arithmetic is no longer exact and the database
has bounds of its own, and what the handler then answers is the parameter
`beyond`. -/
def getUsersWithGptCounts (skipError : JsError) (beyond : Outcome) (caller : Caller) (db : Db)
    (queryPage queryLimit : Option JSString) : Outcome :=
  if notAdmin caller then
    ⟨Response.json 403 (.obj [(js "success", .bool false),
      (js "message", .str (js "Not authorized"))]), db, []⟩
  else
    match orElse (parseInt10 queryPage) 1, orElse (parseInt10 queryLimit) 10 with
    | .exact page, .exact limit =>
      match toJsInteger (page - 1), toJsInteger ((page - 1) * limit) with
      | .exact _, .exact _ => usersPage skipError caller db page limit
      | _, _ => beyond
    | _, _ => beyond

/-- The handler `updateUserPermissions`, for the `userId` of the route and the
`role` and `department` of the body. -/
def updateUserPermissions (lib : Lib) (caller : Caller) (db : Db) (userId : Id)
    (role department : Option JSString) : Outcome :=
  if notAdmin caller then
    ⟨Response.json 403 (.obj [(js "success", .bool false),
      (js "message", .str (js "Only admins can update user permissions"))]), db, []⟩
  else
    match findById db.users userId with
    | none =>
      ⟨Response.json 404 (.obj [(js "success", .bool false),
        (js "message", .str (js "User not found"))]), db, []⟩
    | some found =>
      let user1 := if truthyOpt role
        then { found with role := lib.toLowerCase (role.getD []) } else found
      let user := if truthyOpt department
        then { user1 with department := department } else user1
      ⟨Response.json 200 (.obj [(js "success", .bool true),
        (js "message", .str (js "User permissions updated successfully")),
        (js "user", .obj ([(js "id", .oid user.id), (js "name", .str user.name),
          (js "email", .str user.email), (js "role", .str user.role)]
          ++ optField "department" (user.department.map .str)))]),
        { db with users := saveUser db.users user }, []⟩

/-! ## API keys -/

/-- The assignment `object[key] = value` of a string to a property of a plain
object: the key `__proto__` names the prototype setter, which ignores a
string, so that no property is made. -/
def jsSet (object : StrObj) (key value : JSString) : StrObj :=
  if key = js "__proto__" then object
  else if object.any (fun e => e.1 == key) then
    object.map (fun e => if e.1 = key then (key, value) else e)
  else object ++ [(key, value)]

/-- The value `object[key]` of an own property, `none` for `undefined`. -/
def jsGet (object : StrObj) (key : JSString) : Option JSString := object.lookup key

/-- The loop of `saveApiKeys` over `Object.entries(apiKeys)`: every truthy
value is encrypted, with the bytes `randomBytes calls` for the IV of the
call number `calls`; an error of `encrypt` is thrown on. -/
def encryptEntries (lib : Lib) (randomBytes : Nat → Buffer) :
    StrObj → Nat → StrObj → Except JsError StrObj
  | [], _, encryptedKeys => .ok encryptedKeys
  | (key, value) :: rest, calls, encryptedKeys =>
    if truthy value then
      match encrypt lib.aes lib.encryptionKey (randomBytes calls) value with
      | .ok encrypted =>
        encryptEntries lib randomBytes rest (calls + 1) (jsSet encryptedKeys key encrypted)
      | .error err => .error err
    else encryptEntries lib randomBytes rest calls encryptedKeys

/-- The handler `saveApiKeys`, for the `apiKeys` of the body. -/
def saveApiKeys (lib : Lib) (randomBytes : Nat → Buffer) (caller : Caller) (db : Db)
    (apiKeys : Option StrObj) : Outcome :=
  match apiKeys with
  | none =>
    ⟨Response.json 400 (.obj [(js "success", .bool false),
      (js "message", .str (js "No API keys provided"))]), db, []⟩
  | some entries =>
    match findById db.users caller.id with
    | none =>
      ⟨Response.json 404 (.obj [(js "success", .bool false),
        (js "message", .str (js "User not found"))]), db, []⟩
    | some found =>
      match encryptEntries lib randomBytes entries 0 [] with
      | .error error =>
        ⟨Response.json 500 (.obj [(js "success", .bool false),
          (js "message", .str (if truthy error.message then error.message
            else js "Server error"))]), db, []⟩
      | .ok encryptedKeys =>
        ⟨Response.json 200 (.obj [(js "success", .bool true),
          (js "message", .str (js "API keys saved successfully"))]),
          { db with users := saveUser db.users { found with apiKeys := some encryptedKeys } },
          []⟩

/-- The loop of `getApiKeys` over `Object.entries(user.apiKeys)`. -/
def decryptEntries (lib : Lib) : StrObj → StrObj → StrObj
  | [], decryptedKeys => decryptedKeys
  | (key, value) :: rest, decryptedKeys =>
    if truthy value then
      match decrypt lib.aes lib.encryptionKey value with
      | .ok decrypted =>
        decryptEntries lib rest
          (jsSet decryptedKeys key (if truthy decrypted then decrypted else []))
      | .error _ => decryptEntries lib rest (jsSet decryptedKeys key [])
    else decryptEntries lib rest (jsSet decryptedKeys key [])

/-- The JSON object of an object of strings. -/
def strObjJson (object : StrObj) : Json := .obj (object.map (fun e => (e.1, Json.str e.2)))

/-- The handler `getApiKeys`. -/
def getApiKeys (lib : Lib) (caller : Caller) (db : Db) : Outcome :=
  match findById db.users caller.id with
  | none =>
    ⟨Response.json 404 (.obj [(js "success", .bool false),
      (js "message", .str (js "User not found"))]), db, []⟩
  | some user =>
    match user.apiKeys with
    | none =>
      ⟨Response.json 200 (.obj [(js "success", .bool true), (js "apiKeys", .obj [])]), db, []⟩
    | some stored =>
      ⟨Response.json 200 (.obj [(js "success", .bool true),
        (js "apiKeys", strObjJson (decryptEntries lib stored []))]), db, []⟩

/-! ## Auxiliary definitions of the proofs -/

/-- The token `encrypt` returns for a text under an IV of sixteen bytes. -/
def tokenOf (lib : Lib) (iv : Buffer) (text : JSString) : JSString :=
  toHex iv ++ 58 :: toHex (lib.aes.cipher
    (deriveKey (utf8Write (ENCRYPTION_KEY lib.encryptionKey))) iv (utf8Write text))

/-- The entries `saveApiKeys` stores for the entries of a request, in closed
form: one token for every truthy value under a key other than `__proto__`. -/
def encryptedSpec (lib : Lib) (randomBytes : Nat → Buffer) : StrObj → Nat → StrObj
  | [], _ => []
  | (key, value) :: rest, calls =>
    if truthy value then
      (if key = js "__proto__" then [] else [(key, tokenOf lib (randomBytes calls) value)])
        ++ encryptedSpec lib randomBytes rest (calls + 1)
    else encryptedSpec lib randomBytes rest calls

/-- The value `getApiKeys` returns for one stored value. -/
def decryptedValue (lib : Lib) (value : JSString) : JSString :=
  if truthy value then
    match decrypt lib.aes lib.encryptionKey value with
    | .ok decrypted => if truthy decrypted then decrypted else []
    | .error _ => []
  else []

/-- The double nearest to a real between `2^19` and `2^20`, where the doubles
are the multiples of `2^-33`; a tie goes up. -/
def roundToGrid (x : ℚ) : ℚ := (⌊x * 2 ^ 33 + 1 / 2⌋ : ℚ) / 2 ^ 33

/-- A stand-in for the libraries, used for the concrete instances: the padding
cipher, a tagging hash, tokens that spell the user id. -/
def sampleLib : Lib where
  aes := paddingCipher
  encryptionKey := none
  bcryptHash := fun password _ => js "$2a$10$" ++ password
  bcryptCompare := fun password hash => hash == js "$2a$10$" ++ password
  generateAccessToken := fun userId => js "access." ++ numberToString userId
  signRefreshToken := fun userId => js "refresh." ++ numberToString userId
  jwtVerify := fun token =>
    if token = js "refresh.1" then .ok 1
    else if token = js "refresh.2" then .ok 2
    else if token = js "expired" then .error ⟨js "TokenExpiredError", js "jwt expired"⟩
    else .error ⟨js "JsonWebTokenError", js "jwt malformed"⟩
  toLowerCase := fun s => s.map (fun u => if 65 ≤ u ∧ u ≤ 90 then u + 32 else u)
  roundDouble := roundToGrid

/-- A user of the concrete instances: verified, with the password `secret1`
hashed by the stand-in hash. -/
def sampleUser (id : Id) (email : String) (role : String) : User :=
  { id := id
    name := js "Ada"
    email := js email
    password := some (js "$2a$10$secret1")
    role := js role
    department := none
    isVerified := true
    verificationToken := none
    verificationTokenExpiresAt := none
    resetPasswordToken := none
    resetPasswordExpiresAt := none
    profilePic := none
    apiKeys := none
    lastActive := none
    createdAt := 1000 }

/-- An outcome of the concrete instances, for a parameter that is an outcome. -/
def sampleOutcome : Outcome := ⟨Response.json 500 (.obj []), ⟨[], [], [], []⟩, []⟩

/-- A database of the concrete instances: an admin and a plain user. -/
def sampleDb : Db :=
  { users := [sampleUser 1 "admin@example.com" "admin", sampleUser 2 "ada@example.com" "user"]
    chatHistories := [⟨10, 2⟩]
    assignments := [⟨20, 2, 7⟩]
    favorites := [⟨30, 2, 7⟩] }

/-- The requests `Signup` accepts: name, email and password are non-empty, no
user has the email, and the password has at least six code units. -/
def SignupAccepts (db : Db) (req : SignupReq) : Prop :=
  truthyOpt req.name = true ∧ truthyOpt req.email = true ∧ truthyOpt req.password = true
    ∧ findOneByEmail db.users (req.email.getD []) = none
    ∧ 6 ≤ (req.password.getD []).length

instance (db : Db) (req : SignupReq) : Decidable (SignupAccepts db req) := by
  unfold SignupAccepts; infer_instance

/-- No two users of the collection share an email. -/
def EmailsUnique (users : List User) : Prop := (users.map (fun u => u.email)).Nodup

/-- No two documents of the collection share an `_id`, as MongoDB enforces. -/
def IdsUnique (users : List User) : Prop := (users.map (fun u => u.id)).Nodup

instance (users : List User) : Decidable (EmailsUnique users) := by
  unfold EmailsUnique; infer_instance

instance (users : List User) : Decidable (IdsUnique users) := by
  unfold IdsUnique; infer_instance

/-- A user document after its verification: verified, the code and its expiry
cleared. -/
def markVerified (u : User) : User :=
  { u with isVerified := true, verificationToken := none, verificationTokenExpiresAt := none }

/-- A user who signed up and has not verified the email yet: the code given
and an expiry of 100000. -/
def pendingUser (id : Id) (email : String) (code : String) : User :=
  { sampleUser id email "user" with
    isVerified := false
    verificationToken := some (js code)
    verificationTokenExpiresAt := some 100000 }

/-- The rounding `fl` gives a double nearest to the exact value: no double in
`doubles` is nearer. -/
def RoundsToNearest (fl : ℚ → ℚ) (doubles : List ℚ) : Prop :=
  ∀ x : ℚ, ∀ y ∈ doubles, |fl x - x| ≤ |y - x|

/-- The database without a user and without the chat histories, assignments
and favorites of that user; the records of the other users stay as they are,
in their order. -/
def withoutUser (db : Db) (userId : Id) : Db :=
  { users := db.users.filter (fun u => u.id != userId)
    chatHistories := db.chatHistories.filter (fun r => r.userId != userId)
    assignments := db.assignments.filter (fun r => r.userId != userId)
    favorites := db.favorites.filter (fun r => r.userId != userId) }

/-- A user document with another key map and all other fields as they are. -/
def withApiKeys (u : User) (keys : StrObj) : User := { u with apiKeys := some keys }

/-- The element of `users` in the response of `getUsersWithGptCounts`: the
selected fields of a user and the count of the assignments. -/
def userWithCount (assignments : List UserGptAssignment) (u : User) : Json :=
  .obj ([(js "_id", .oid u.id), (js "name", .str u.name), (js "email", .str u.email),
      (js "role", .str u.role), (js "createdAt", .date u.createdAt)]
    ++ optField "lastActive" (u.lastActive.map .date)
    ++ [(js "gptCount", .num (gptCount assignments u.id))])

/-- A user of the concrete instances with a given time of creation. -/
def sampleUserAt (id : Id) (email : String) (createdAt : Nat) : User :=
  { sampleUser id email "user" with createdAt := createdAt }

/-- A database of the concrete instances: the admin and three users, created
at 3000, 1000 and 2000, of whom user 3 has two assignments. -/
def pagedDb : Db :=
  { users := [sampleUser 1 "admin@example.com" "admin", sampleUserAt 2 "a@example.com" 3000,
      sampleUserAt 3 "b@example.com" 1000, sampleUserAt 4 "c@example.com" 2000]
    chatHistories := []
    assignments := [⟨20, 3, 7⟩, ⟨21, 3, 8⟩]
    favorites := [] }

/-! ## Theorems -/

/-! ### Strings, hexadecimal and UTF-8 -/

theorem surrogate_bounds (u : Nat) :
    (isHighSurrogate u = true ↔ 55296 ≤ u ∧ u < 56320)
      ∧ (isLowSurrogate u = true ↔ 56320 ≤ u ∧ u < 57344) := by
  simp [isHighSurrogate, isLowSurrogate]

theorem unhex_hexDigit (n : Nat) (h : n < 16) : unhex (hexDigit n) = some n := by
  unfold hexDigit unhex
  split_ifs <;> first | omega | (congr 1; omega)

theorem hexDigit_ne_colon (n : Nat) : hexDigit n ≠ 58 := by
  unfold hexDigit
  split_ifs <;> omega

theorem fromHex_toHex (b : Buffer) (h : IsBytes b) : fromHex (toHex b) = b := by
  induction b with
  | nil => rfl
  | cons x xs ih =>
    have hx : x < 256 := h x (List.mem_cons_self _ _)
    have hxs : IsBytes xs := fun y hy => h y (List.mem_cons_of_mem _ hy)
    simp only [toHex, fromHex, unhex_hexDigit (x / 16) (by omega),
      unhex_hexDigit (x % 16) (by omega), ih hxs]
    congr 1; omega

/-- Only the low byte of a code unit counts: `U+0131 U+0132` decodes as `12`
does, and a numeral beyond `2^53` is not read as an exact integer. -/
theorem fromHex_low_byte :
    fromHex [305, 306] = [18] ∧ fromHex (js "12") = [18] ∧ fromHex (js "1g") = []
      ∧ parseInt10 (some (js "9007199254740993")) = .beyond
      ∧ parseInt10 (some (js "9007199254740992")) = .exact 9007199254740992 := by
  decide

theorem colon_not_mem_toHex (b: Buffer) : 58 ∉ toHex b := by
  induction b with
  | nil => simp [toHex]
  | cons x xs ih =>
    simp only [toHex, List.mem_cons, not_or]
    exact ⟨fun h => hexDigit_ne_colon _ h.symm, fun h => hexDigit_ne_colon _ h.symm, ih⟩

theorem toHex_length (b : Buffer) : (toHex b).length = 2 * b.length := by
  induction b with
  | nil => rfl
  | cons x xs ih => simp only [toHex, List.length_cons, ih]; omega

theorem split_ne_nil (sep : Nat) (s : JSString) : split sep s ≠ [] := by
  cases s with
  | nil => simp [split]
  | cons c cs =>
    simp only [split]
    split_ifs
    · simp
    · split <;> simp

theorem split_append_sep (sep : Nat) (a b : JSString) (h : sep ∉ a) :
    split sep (a ++ sep :: b) = a :: split sep b := by
  induction a with
  | nil => simp [split]
  | cons c cs ih =>
    have hc : c ≠ sep := fun e => h (e ▸ List.mem_cons_self _ _)
    have hcs : sep ∉ cs := fun m => h (List.mem_cons_of_mem _ m)
    show split sep (c :: (cs ++ sep :: b)) = _
    rw [split, if_neg hc, ih hcs]

theorem join_split (sep : Nat) (s : JSString) : join sep (split sep s) = s := by
  induction s with
  | nil => rfl
  | cons c cs ih =>
    simp only [split]
    split_ifs with hc
    · subst hc
      rcases hs : split c cs with _ | ⟨p, ps⟩
      · exact absurd hs (split_ne_nil _ _)
      · rw [hs] at ih
        simp only [join, List.nil_append, ih]
    · rcases hs : split sep cs with _ | ⟨p, ps⟩
      · exact absurd hs (split_ne_nil _ _)
      · rw [hs] at ih
        cases ps with
        | nil => simp only [join] at ih ⊢; rw [ih]
        | cons q qs => simp only [join, List.cons_append] at ih ⊢; rw [ih]

theorem deriveKey_length (secret : Buffer) : (deriveKey secret).length = 32 := by
  unfold deriveKey bufferCopy
  split_ifs with h
  · simp only [List.length_append, List.length_take, List.length_drop, List.length_replicate]
    omega
  · omega

theorem utf8EncodeCodePoint_bytes (c : Nat) (h : c < 2097152) :
    IsBytes (utf8EncodeCodePoint c) := by
  unfold utf8EncodeCodePoint IsBytes
  split_ifs <;> simp only [List.mem_cons, List.mem_singleton, List.not_mem_nil, or_false] <;>
    intro x hx <;> omega

theorem IsBytes_append {a b : Buffer} (ha : IsBytes a) (hb : IsBytes b) : IsBytes (a ++ b) := by
  intro x hx
  rcases List.mem_append.1 hx with h | h
  · exact ha x h
  · exact hb x h

theorem utf8Write_bytes : (s : JSString) → IsJSString s → IsBytes (utf8Write s)
  | [], _ => by simp [utf8Write, IsBytes]
  | [u], h => by
    have hu : u < 65536 := h u (List.mem_cons_self _ _)
    simp only [utf8Write]
    split_ifs
    · decide
    · decide
    · exact IsBytes_append (utf8EncodeCodePoint_bytes u (by omega)) (by simp [IsBytes])
  | u :: v :: rest, h => by
    have hu : u < 65536 := h u (List.mem_cons_self _ _)
    have hv : v < 65536 := h v (List.mem_cons_of_mem _ (List.mem_cons_self _ _))
    have h1 : IsJSString (v :: rest) := fun y hy => h y (List.mem_cons_of_mem _ hy)
    have h2 : IsJSString rest := fun y hy => h1 y (List.mem_cons_of_mem _ hy)
    have ih1 := utf8Write_bytes (v :: rest) h1
    have ih2 := utf8Write_bytes rest h2
    simp only [utf8Write]
    split_ifs with hh hl
    · have bu := (surrogate_bounds u).1.1 hh
      have bv := (surrogate_bounds v).2.1 hl
      exact IsBytes_append (utf8EncodeCodePoint_bytes _ (by omega)) ih2
    · exact IsBytes_append (by decide) ih1
    · exact IsBytes_append (by decide) ih1
    · exact IsBytes_append (utf8EncodeCodePoint_bytes u (by omega)) ih1

theorem pkcs7Unpad_pkcs7Pad (p : Buffer) : pkcs7Unpad (pkcs7Pad p) = some p := by
  unfold pkcs7Unpad pkcs7Pad
  have hn : 1 ≤ 16 - p.length % 16 ∧ 16 - p.length % 16 ≤ 16 := by omega
  have hlen : (p ++ List.replicate (16 - p.length % 16) (16 - p.length % 16)).length
      = p.length + (16 - p.length % 16) := by simp
  have hmod : ¬ ((p.length + (16 - p.length % 16)) = 0
      ∨ (p.length + (16 - p.length % 16)) % 16 ≠ 0) := by omega
  rw [hlen, if_neg hmod]
  generalize 16 - p.length % 16 = n at hn
  have hlast : (p ++ List.replicate n n).getLastD 0 = n := by
    obtain ⟨m, rfl⟩ : ∃ m, n = m + 1 := ⟨n - 1, by omega⟩
    rw [List.replicate_succ', ← List.append_assoc]
    simp
  simp only [hlast, Nat.add_sub_cancel, List.drop_left, List.take_left, hn, true_and, if_true]
theorem paddingCipher_lawful : paddingCipher.Lawful where
  bytes := by
    intro key iv p hp
    exact IsBytes_append hp (by
      intro x hx
      have := List.eq_of_mem_replicate hx
      omega)
  inverts := by
    intro key iv p _ _ _
    exact pkcs7Unpad_pkcs7Pad p
  blocks := by
    intro key iv c h
    show pkcs7Unpad c = none
    unfold pkcs7Unpad
    rw [if_pos h]

theorem utf8Lead_ascii (b : Nat) (h : b < 128) : utf8Lead b = ([b], Utf8State.idle) := by
  simp [utf8Lead, h]

theorem utf8Lead_two (b : Nat) (h : 194 ≤ b ∧ b ≤ 223) :
    utf8Lead b = ([], ⟨b % 32, 1, 128, 191⟩) := by
  have h1 : ¬ b < 128 := by omega
  simp [utf8Lead, h, h1]

theorem utf8Lead_three (b : Nat) (h : 224 ≤ b ∧ b ≤ 239) :
    utf8Lead b = ([], ⟨b % 16, 2, if b = 224 then 160 else 128, if b = 237 then 159 else 191⟩) := by
  have h1 : ¬ b < 128 := by omega
  have h2 : ¬ (194 ≤ b ∧ b ≤ 223) := by omega
  simp only [utf8Lead, h, h1, h2, if_false, if_true, and_self]

theorem utf8Lead_four (b : Nat) (h : 240 ≤ b ∧ b ≤ 244) :
    utf8Lead b = ([], ⟨b % 8, 3, if b = 240 then 144 else 128, if b = 244 then 143 else 191⟩) := by
  have h1 : ¬ b < 128 := by omega
  have h2 : ¬ (194 ≤ b ∧ b ≤ 223) := by omega
  have h3 : ¬ (224 ≤ b ∧ b ≤ 239) := by omega
  simp only [utf8Lead, h, h1, h2, h3, if_false, if_true, and_self]

theorem utf8Decode_idle_cons (b : Nat) (rest : Buffer) :
    utf8DecodeFrom Utf8State.idle (b :: rest)
      = (utf8Lead b).1 ++ utf8DecodeFrom (utf8Lead b).2 rest := by
  simp [utf8DecodeFrom, Utf8State.idle]

theorem utf8Decode_last (cp lo hi b : Nat) (rest : Buffer) (h : lo ≤ b ∧ b ≤ hi) :
    utf8DecodeFrom ⟨cp, 1, lo, hi⟩ (b :: rest)
      = (cp * 64 + b % 64) :: utf8DecodeFrom Utf8State.idle rest := by
  simp [utf8DecodeFrom, h]

theorem utf8Decode_more (cp n lo hi b : Nat) (rest : Buffer) (h : lo ≤ b ∧ b ≤ hi) :
    utf8DecodeFrom ⟨cp, n + 2, lo, hi⟩ (b :: rest)
      = utf8DecodeFrom ⟨cp * 64 + b % 64, n + 1, 128, 191⟩ rest := by
  simp [utf8DecodeFrom, h]

theorem utf8_scalar (c : Nat) (hc : c < 1114112) (hs : ¬ (55296 ≤ c ∧ c < 57344)) (rest : Buffer) :
    utf8DecodeFrom Utf8State.idle (utf8EncodeCodePoint c ++ rest)
      = c :: utf8DecodeFrom Utf8State.idle rest := by
  unfold utf8EncodeCodePoint
  split_ifs with h1 h2 h3
  · rw [List.singleton_append, utf8Decode_idle_cons, utf8Lead_ascii c h1]; rfl
  · simp only [List.cons_append, List.nil_append]
    rw [utf8Decode_idle_cons, utf8Lead_two _ (by omega)]
    simp only [List.nil_append]
    rw [utf8Decode_last _ _ _ _ _ (by omega)]
    congr 1; omega
  · simp only [List.cons_append, List.nil_append]
    rw [utf8Decode_idle_cons, utf8Lead_three _ (by omega)]
    simp only [List.nil_append]
    rw [utf8Decode_more _ 0 _ _ _ _ (by split_ifs <;> omega)]
    rw [utf8Decode_last _ _ _ _ _ (by omega)]
    congr 1; omega
  · simp only [List.cons_append, List.nil_append]
    rw [utf8Decode_idle_cons, utf8Lead_four _ (by omega)]
    simp only [List.nil_append]
    rw [utf8Decode_more _ 1 _ _ _ _ (by split_ifs <;> omega)]
    rw [utf8Decode_more _ 0 _ _ _ _ (by omega)]
    rw [utf8Decode_last _ _ _ _ _ (by omega)]
    congr 1; omega

theorem utf8Write_pair (u v : Nat) (rest : JSString) (hu : isHighSurrogate u = true)
    (hv : isLowSurrogate v = true) :
    utf8Write (u :: v :: rest)
      = utf8EncodeCodePoint (65536 + (u - 55296) * 1024 + (v - 56320)) ++ utf8Write rest := by
  simp [utf8Write, hu, hv]

theorem utf8Write_unit (u : Nat) (rest : JSString) (hu : isHighSurrogate u = false)
    (hl : isLowSurrogate u = false) :
    utf8Write (u :: rest) = utf8EncodeCodePoint u ++ utf8Write rest := by
  cases rest <;> simp [utf8Write, hu, hl]

theorem utf16OfCodePoints_pair (u v : Nat) (cs : List Nat) (hu : 55296 ≤ u ∧ u < 56320)
    (hv : 56320 ≤ v ∧ v < 57344) :
    utf16OfCodePoints ((65536 + (u - 55296) * 1024 + (v - 56320)) :: cs)
      = u :: v :: utf16OfCodePoints cs := by
  have h1 : ¬ (65536 + (u - 55296) * 1024 + (v - 56320) < 65536) := by omega
  have h2 : 55296 + (65536 + (u - 55296) * 1024 + (v - 56320) - 65536) / 1024 = u := by omega
  have h3 : 56320 + (65536 + (u - 55296) * 1024 + (v - 56320) - 65536) % 1024 = v := by omega
  simp only [utf16OfCodePoints, utf16Units, if_neg h1, h2, h3, List.cons_append, List.nil_append]

theorem utf16OfCodePoints_unit (u : Nat) (cs : List Nat) (hu : u < 65536) :
    utf16OfCodePoints (u :: cs) = u :: utf16OfCodePoints cs := by
  simp only [utf16OfCodePoints, utf16Units, if_pos hu, List.cons_append, List.nil_append]

theorem utf8Decode_utf8Write : (s : JSString) → WellFormed s = true →
    utf16OfCodePoints (utf8DecodeFrom Utf8State.idle (utf8Write s)) = s
  | [], _ => rfl
  | [u], h => by
    cases hu : isHighSurrogate u
    · cases hl : isLowSurrogate u
      · simp [WellFormed, hu, hl] at h
        have bu := (surrogate_bounds u).1.not
        have bl := (surrogate_bounds u).2.not
        simp only [hu, hl, Bool.false_eq_true, not_false_eq_true, true_iff] at bu bl
        rw [utf8Write_unit u [] hu hl, utf8_scalar u (by omega) (by omega),
          utf16OfCodePoints_unit u _ h]
        rfl
      · simp [WellFormed, hu, hl] at h
    · simp [WellFormed, hu] at h
  | u :: v :: rest2, h => by
    cases hu : isHighSurrogate u
    · cases hl : isLowSurrogate u
      · simp [WellFormed, hu, hl] at h
        have bu := (surrogate_bounds u).1.not
        have bl := (surrogate_bounds u).2.not
        simp only [hu, hl, Bool.false_eq_true, not_false_eq_true, true_iff] at bu bl
        rw [utf8Write_unit u _ hu hl, utf8_scalar u (by omega) (by omega),
          utf16OfCodePoints_unit u _ h.1, utf8Decode_utf8Write (v :: rest2) h.2]
      · simp [WellFormed, hu, hl] at h
    · cases hv : isLowSurrogate v
      · simp [WellFormed, hu, hv] at h
      · simp [WellFormed, hu, hv] at h
        have bu := (surrogate_bounds u).1.1 hu
        have bv := (surrogate_bounds v).2.1 hv
        rw [utf8Write_pair u v _ hu hv,
          utf8_scalar (65536 + (u - 55296) * 1024 + (v - 56320)) (by omega) (by omega),
          utf16OfCodePoints_pair u v _ bu bv, utf8Decode_utf8Write rest2 h]

theorem WellFormed_isJSString : (s : JSString) → WellFormed s = true → IsJSString s
  | [], _ => by simp [IsJSString]
  | [u], h => by
    intro x hx
    simp only [List.mem_singleton] at hx
    subst hx
    cases hu : isHighSurrogate x
    · cases hl : isLowSurrogate x
      · simp [WellFormed, hu, hl] at h; exact h
      · simp [WellFormed, hu, hl] at h
    · have := (surrogate_bounds x).1.1 hu; omega
  | u :: v :: rest, h => by
    cases hu : isHighSurrogate u
    · cases hl : isLowSurrogate u
      · simp [WellFormed, hu, hl] at h
        have ih := WellFormed_isJSString (v :: rest) h.2
        intro x hx
        rcases List.mem_cons.1 hx with rfl | hx
        · exact h.1
        · exact ih x hx
      · simp [WellFormed, hu, hl] at h
    · cases hv : isLowSurrogate v
      · simp [WellFormed, hu, hv] at h
      · simp [WellFormed, hu, hv] at h
        have ih := WellFormed_isJSString rest h
        have bu := (surrogate_bounds u).1.1 hu
        have bv := (surrogate_bounds v).2.1 hv
        intro x hx
        rcases List.mem_cons.1 hx with rfl | hx
        · omega
        · rcases List.mem_cons.1 hx with rfl | hx
          · omega
          · exact ih x hx

theorem split_headD (text : JSString) : (split 58 text).headD [] = beforeColon text := by
  unfold beforeColon
  induction text with
  | nil => rfl
  | cons c cs ih =>
    simp only [split]
    by_cases hc : c = 58
    · subst hc; simp
    · rw [if_neg hc]
      have hb : (c != 58) = true := by simpa using hc
      rw [List.takeWhile_cons, hb, ← ih]
      rcases hs : split 58 cs with _ | ⟨p, ps⟩
      · exact absurd hs (split_ne_nil _ _)
      · simp

theorem join_split_tail (text : JSString) :
    join 58 (split 58 text).tail = afterColon text := by
  unfold afterColon
  induction text with
  | nil => rfl
  | cons c cs ih =>
    simp only [split]
    by_cases hc : c = 58
    · subst hc
      simp [join_split]
    · rw [if_neg hc]
      have hb : (c != 58) = true := by simpa using hc
      have e : List.dropWhile (· != 58) (c :: cs) = List.dropWhile (· != 58) cs := by
        simp [List.dropWhile_cons, hb]
      rw [e, ← ih]
      rcases hs : split 58 cs with _ | ⟨p, ps⟩
      · exact absurd hs (split_ne_nil _ _)
      · simp

theorem fromHex_toHex_append (b : Buffer) (g : JSString) (h : IsBytes b) :
    fromHex (toHex b ++ g) = b ++ fromHex g := by
  induction b with
  | nil => rfl
  | cons x xs ih =>
    have hx : x < 256 := h x (List.mem_cons_self _ _)
    have hxs : IsBytes xs := fun y hy => h y (List.mem_cons_of_mem _ hy)
    show fromHex (hexDigit (x / 16) :: hexDigit (x % 16) :: (toHex xs ++ g)) = _
    simp only [fromHex, unhex_hexDigit (x / 16) (by omega),
      unhex_hexDigit (x % 16) (by omega), ih hxs, List.cons_append]
    congr 1; omega

theorem beforeColon_token (a : Buffer) (rest : JSString) :
    beforeColon (toHex a ++ 58 :: rest) = toHex a := by
  unfold beforeColon
  rw [List.takeWhile_append_of_pos]
  · simp
  · intro x hx
    have : x ≠ 58 := fun e => colon_not_mem_toHex a (e ▸ hx)
    simpa using this

theorem afterColon_token (a : Buffer) (rest : JSString) :
    afterColon (toHex a ++ 58 :: rest) = rest := by
  unfold afterColon
  rw [List.dropWhile_append_of_pos]
  · simp
  · intro x hx
    have : x ≠ 58 := fun e => colon_not_mem_toHex a (e ▸ hx)
    simpa using this

/-- What `decrypt` computes on a string that has a `:`. -/
theorem decryptTry_colon (A : Aes256Cbc) (env : Option JSString) (text : JSString)
    (h : 58 ∈ text) :
    decryptTry A env text =
      if (fromHex (beforeColon text)).length ≠ 16 then .ok []
      else
        match runDecipher A (deriveKey (utf8Write (ENCRYPTION_KEY env)))
            (fromHex (beforeColon text)) (fromHex (afterColon text)) with
        | .ok decrypted => .ok (utf8ToString decrypted)
        | .error err => .error err := by
  have hne : text ≠ [] := by rintro rfl; simp at h
  have ht : truthy text = true := by
    cases text with
    | nil => exact absurd rfl hne
    | cons c cs => rfl
  have hcn : text.contains 58 = true := by simpa using h
  have h1 : (!truthy text || !text.contains 58) = false := by simp [ht, h]
  unfold decryptTry
  simp only [h1, Bool.false_eq_true, if_false, split_headD, join_split_tail, IV_LENGTH]

/-- A token made by `encrypt`, with or without text after it that does not
start with two hexadecimal digits, decrypts to the UTF-8 reading of the bytes
that were enciphered. -/
theorem decrypt_encrypt_append (A : Aes256Cbc) (hA : A.Lawful) (env : Option JSString)
    (iv : Buffer) (text g : JSString) (hiv : iv.length = 16) (hivb : IsBytes iv)
    (hs : IsJSString text) (hg : fromHex g = []) :
    ∃ token, encrypt A env iv text = .ok token
      ∧ decrypt A env (token ++ g) = .ok (utf8ToString (utf8Write text)) := by
  have hk := deriveKey_length (utf8Write (ENCRYPTION_KEY env))
  have hp := utf8Write_bytes text hs
  have hc := hA.bytes (deriveKey (utf8Write (ENCRYPTION_KEY env))) iv _ hp
  refine ⟨toHex iv ++ 58 :: toHex (A.cipher (deriveKey (utf8Write (ENCRYPTION_KEY env))) iv
    (utf8Write text)), ?_, ?_⟩
  · simp [encrypt, runCipher, hk, hiv]
  · have hmem : 58 ∈ toHex iv ++ 58 :: toHex (A.cipher (deriveKey (utf8Write (ENCRYPTION_KEY env)))
        iv (utf8Write text)) ++ g := by simp
    unfold decrypt
    rw [decryptTry_colon A env _ hmem]
    rw [List.append_assoc, List.cons_append, beforeColon_token, afterColon_token,
      fromHex_toHex iv hivb, fromHex_toHex_append _ _ hc, hg, List.append_nil]
    simp [hiv, runDecipher, hk, hA.inverts _ _ _ hk hiv hp]


/-! ### C1: the round trip of the codec -/

/-- C1 (amended): for every non-empty well-formed string `text` (UTF-16 without
an unpaired surrogate) and every 16-byte IV that `encrypt` may draw, `encrypt`
returns a token and `decrypt` of that token returns exactly `text`, under the
same configured key and a cipher with the laws assumed of AES-256-CBC. -/
theorem decrypt_encrypt_wellFormed (A : Aes256Cbc) (hA : A.Lawful) (env : Option JSString)
    (iv : Buffer) (text : JSString) (hiv : iv.length = IV_LENGTH) (hivb : IsBytes iv)
    (_hne : text ≠ []) (hwf : WellFormed text = true) :
    ∃ token, encrypt A env iv text = .ok token ∧ decrypt A env token = .ok text := by
  obtain ⟨token, h1, h2⟩ := decrypt_encrypt_append A hA env iv text [] hiv hivb
    (WellFormed_isJSString text hwf) rfl
  refine ⟨token, h1, ?_⟩
  rw [List.append_nil] at h2
  rw [h2]
  exact congrArg Except.ok (utf8Decode_utf8Write text hwf)

/-- C1, witness: the key `sk-abc` under the stand-in cipher, the default secret
and the IV of sixteen bytes 7. -/
theorem decrypt_encrypt_wellFormed_witness :
    ∃ token, encrypt paddingCipher none (List.replicate 16 7) (js "sk-abc") = .ok token
      ∧ decrypt paddingCipher none token = .ok (js "sk-abc") :=
  decrypt_encrypt_wellFormed paddingCipher paddingCipher_lawful none (List.replicate 16 7)
    (js "sk-abc") (by decide) (by decide) (by decide) (by decide)

/-- C1 as stated fails: the one-unit string `"\uD800"` (an unpaired high
surrogate) is a non-empty string, and under every lawful cipher, key and IV
`decrypt(encrypt("\uD800"))` is `"\uFFFD"`; so the round trip does not hold
for every non-empty string. -/
theorem decrypt_encrypt_lone_surrogate :
    (∀ A : Aes256Cbc, A.Lawful → ∀ (env : Option JSString) (iv : Buffer),
        iv.length = IV_LENGTH → IsBytes iv →
        ∃ token, encrypt A env iv [55296] = .ok token
          ∧ decrypt A env token = .ok [65533])
    ∧ ¬ (∀ A : Aes256Cbc, A.Lawful → ∀ (env : Option JSString) (iv : Buffer) (text : JSString),
        iv.length = IV_LENGTH → IsBytes iv → text ≠ [] → IsJSString text →
        ∃ token, encrypt A env iv text = .ok token ∧ decrypt A env token = .ok text) := by
  have key : ∀ A : Aes256Cbc, A.Lawful → ∀ (env : Option JSString) (iv : Buffer),
      iv.length = IV_LENGTH → IsBytes iv →
      ∃ token, encrypt A env iv [55296] = .ok token
        ∧ decrypt A env token = .ok [65533] := by
    intro A hA env iv hiv hivb
    obtain ⟨token, h1, h2⟩ := decrypt_encrypt_append A hA env iv [55296] [] hiv hivb
      (by decide) rfl
    rw [List.append_nil] at h2
    exact ⟨token, h1, h2⟩
  refine ⟨key, fun h => ?_⟩
  obtain ⟨t1, e1, d1⟩ := key paddingCipher paddingCipher_lawful none (List.replicate 16 0)
    (by decide) (by decide)
  obtain ⟨t2, e2, d2⟩ := h paddingCipher paddingCipher_lawful none (List.replicate 16 0)
    [55296] (by decide) (by decide) (by decide) (by decide)
  rw [e1] at e2
  cases e2
  rw [d1] at d2
  exact absurd (Except.ok.inj d2) (by decide)

/-! ### C2: malformed input of `decrypt` -/

/-- C2 (amended): `decrypt` returns the empty string, and does not throw, for
every input that is empty, has no `:`, has a part before the first `:` that
does not hex-decode to exactly 16 bytes, or has a part after the first `:`
whose hex-decoding is empty or not a whole number of 16-byte blocks; and
`decrypt` throws on no input at all. The hex-decoding is that of
`Buffer.from(.., 'hex')`: it reads the low byte of each character and stops
at the first pair that is not two hexadecimal digits. -/
theorem decrypt_malformed (A : Aes256Cbc) (hA : A.Lawful) (env : Option JSString)
    (text : JSString)
    (h : text = [] ∨ 58 ∉ text ∨ (fromHex (beforeColon text)).length ≠ IV_LENGTH
      ∨ (fromHex (afterColon text)).length = 0
      ∨ (fromHex (afterColon text)).length % 16 ≠ 0) :
    decrypt A env text = .ok [] ∧ ∀ t : JSString, ∃ v, decrypt A env t = .ok v := by
  constructor
  · by_cases hc : 58 ∈ text
    · have hne : text ≠ [] := by rintro rfl; simp at hc
      unfold decrypt
      rw [decryptTry_colon A env text hc]
      rcases h with h | h | h | h
      · exact absurd h hne
      · exact absurd hc h
      · have h16 : (fromHex (beforeColon text)).length ≠ 16 := h
        rw [if_pos h16]
      · split_ifs with hl
        · rfl
        · simp only [runDecipher]
          rw [hA.blocks _ _ _ h]
          split_ifs <;> rfl
    · have h1 : (!truthy text || !text.contains 58) = true := by simp [hc]
      unfold decrypt decryptTry
      rw [if_pos h1]
  · intro t
    unfold decrypt
    cases decryptTry A env t with
    | ok v => exact ⟨v, rfl⟩
    | error e => exact ⟨[], rfl⟩

/-- C2, witness: the input `zz:zz`, whose two parts hold no hexadecimal digit. -/
theorem decrypt_malformed_witness :
    decrypt paddingCipher none (js "zz:zz") = .ok []
      ∧ ∀ t : JSString, ∃ v, decrypt paddingCipher none t = .ok v :=
  decrypt_malformed paddingCipher paddingCipher_lawful none (js "zz:zz")
    (Or.inr (Or.inr (Or.inl (by decide))))

/-- C2 as stated fails: text that is not hexadecimal after the `:` does not
make `decrypt` return the empty string. Under every lawful cipher, a token made
by `encrypt` followed by `zz` has a non-hexadecimal character after its `:`
and still decrypts to the original text. -/
theorem decrypt_accepts_trailing_garbage :
    (∀ A : Aes256Cbc, A.Lawful → ∀ (env : Option JSString) (iv : Buffer) (text : JSString),
        iv.length = IV_LENGTH → IsBytes iv → WellFormed text = true →
        ∃ token, encrypt A env iv text = .ok token
          ∧ (∃ u ∈ afterColon (token ++ js "zz"), unhex u = none)
          ∧ decrypt A env (token ++ js "zz") = .ok text)
    ∧ ¬ (∀ A : Aes256Cbc, A.Lawful → ∀ (env : Option JSString) (text : JSString),
        (∃ u ∈ afterColon text, unhex u = none) → decrypt A env text = .ok []) := by
  have key : ∀ A : Aes256Cbc, A.Lawful → ∀ (env : Option JSString) (iv : Buffer)
      (text : JSString), iv.length = IV_LENGTH → IsBytes iv → WellFormed text = true →
      ∃ token, encrypt A env iv text = .ok token
        ∧ (∃ u ∈ afterColon (token ++ js "zz"), unhex u = none)
        ∧ decrypt A env (token ++ js "zz") = .ok text := by
    intro A hA env iv text hiv hivb hwf
    obtain ⟨token, h1, h2⟩ := decrypt_encrypt_append A hA env iv text (js "zz") hiv hivb
      (WellFormed_isJSString text hwf) rfl
    refine ⟨token, h1, ?_, ?_⟩
    · have hk := deriveKey_length (utf8Write (ENCRYPTION_KEY env))
      have ht : token = toHex iv ++ 58 :: toHex (A.cipher
          (deriveKey (utf8Write (ENCRYPTION_KEY env))) iv (utf8Write text)) := by
        have : encrypt A env iv text = .ok (toHex iv ++ 58 :: toHex (A.cipher
            (deriveKey (utf8Write (ENCRYPTION_KEY env))) iv (utf8Write text))) := by
          simp [encrypt, runCipher, hk, hiv, IV_LENGTH]
        rw [h1] at this
        cases this
        rfl
      subst ht
      rw [List.append_assoc, List.cons_append, afterColon_token]
      exact ⟨122, by simp [js, jsUnits, utf16Units], by decide⟩
    · rw [h2]
      exact congrArg Except.ok (utf8Decode_utf8Write text hwf)
  refine ⟨key, fun h => ?_⟩
  obtain ⟨token, -, hg, hd⟩ := key paddingCipher paddingCipher_lawful none
    (List.replicate 16 0) (js "a") (by decide) (by decide) (by decide)
  rw [h paddingCipher paddingCipher_lawful none _ hg] at hd
  exact absurd (Except.ok.inj hd) (by decide)

/-! ### C3: saving and retrieving API keys -/

theorem encrypt_eq_tokenOf (lib : Lib) (iv : Buffer) (text : JSString)
    (hiv : iv.length = IV_LENGTH) :
    encrypt lib.aes lib.encryptionKey iv text = .ok (tokenOf lib iv text) := by
  have hk := deriveKey_length (utf8Write (ENCRYPTION_KEY lib.encryptionKey))
  have hiv16 : iv.length = 16 := hiv
  simp [encrypt, runCipher, hk, hiv16, tokenOf]

theorem jsSet_fresh (object : StrObj) (key value : JSString) (hp : key ≠ js "__proto__")
    (hk : key ∉ object.map Prod.fst) : jsSet object key value = object ++ [(key, value)] := by
  unfold jsSet
  rw [if_neg hp]
  have : object.any (fun e => e.1 == key) = false := by
    rw [List.any_eq_false]
    intro e he h
    exact hk (List.mem_map.2 ⟨e, he, by simpa using h⟩)
  rw [this]
  rfl

theorem jsSet_proto (object : StrObj) (value : JSString) :
    jsSet object (js "__proto__") value = object := by
  unfold jsSet
  rw [if_pos rfl]

theorem encryptEntries_eq (lib : Lib) (randomBytes : Nat → Buffer)
    (hr : ∀ i, (randomBytes i).length = IV_LENGTH) :
    ∀ (entries : StrObj) (calls : Nat) (acc : StrObj),
      (entries.map Prod.fst).Nodup → (∀ k ∈ entries.map Prod.fst, k ∉ acc.map Prod.fst) →
      encryptEntries lib randomBytes entries calls acc
        = .ok (acc ++ encryptedSpec lib randomBytes entries calls)
  | [], _, acc, _, _ => by simp [encryptEntries, encryptedSpec]
  | (key, value) :: rest, calls, acc, hnd, hdis => by
    have hnd2 : (rest.map Prod.fst).Nodup := (List.nodup_cons.1 hnd).2
    have hkrest : key ∉ rest.map Prod.fst := (List.nodup_cons.1 hnd).1
    have hkacc : key ∉ acc.map Prod.fst := hdis key (List.mem_cons_self _ _)
    have hdis2 : ∀ k ∈ rest.map Prod.fst, k ∉ acc.map Prod.fst :=
      fun k hk => hdis k (List.mem_cons_of_mem _ hk)
    unfold encryptEntries encryptedSpec
    by_cases hv : truthy value = true
    · rw [if_pos hv, if_pos hv, encrypt_eq_tokenOf lib _ _ (hr calls)]
      by_cases hp : key = js "__proto__"
      · subst hp
        simp only [jsSet_proto, if_true, List.nil_append]
        exact encryptEntries_eq lib randomBytes hr rest (calls + 1) acc hnd2 hdis2
      · simp only [jsSet_fresh acc key _ hp hkacc, if_neg hp]
        rw [encryptEntries_eq lib randomBytes hr rest (calls + 1) _ hnd2]
        · simp
        · intro k hk hmem
          simp only [List.map_append, List.map_cons, List.map_nil, List.mem_append,
            List.mem_singleton] at hmem
          rcases hmem with h | h
          · exact hdis2 k hk h
          · exact hkrest (h ▸ hk)
    · rw [if_neg hv, if_neg hv]
      exact encryptEntries_eq lib randomBytes hr rest calls acc hnd2 hdis2

theorem encryptedSpec_keys (lib : Lib) (randomBytes : Nat → Buffer) :
    ∀ (entries : StrObj) (calls : Nat) (k : JSString),
      k ∈ (encryptedSpec lib randomBytes entries calls).map Prod.fst →
      k ∈ entries.map Prod.fst ∧ k ≠ js "__proto__"
  | [], _, k, h => by simp [encryptedSpec] at h
  | (key, value) :: rest, calls, k, h => by
    unfold encryptedSpec at h
    split_ifs at h with hv hp
    · simp only [List.nil_append] at h
      have := encryptedSpec_keys lib randomBytes rest (calls + 1) k h
      exact ⟨List.mem_cons_of_mem _ this.1, this.2⟩
    · simp only [List.singleton_append, List.map_cons, List.mem_cons] at h
      rcases h with rfl | h
      · exact ⟨List.mem_cons_self _ _, hp⟩
      · have := encryptedSpec_keys lib randomBytes rest (calls + 1) k h
        exact ⟨List.mem_cons_of_mem _ this.1, this.2⟩
    · have := encryptedSpec_keys lib randomBytes rest calls k h
      exact ⟨List.mem_cons_of_mem _ this.1, this.2⟩

theorem encryptedSpec_nodup (lib : Lib) (randomBytes : Nat → Buffer) :
    ∀ (entries : StrObj) (calls : Nat), (entries.map Prod.fst).Nodup →
      ((encryptedSpec lib randomBytes entries calls).map Prod.fst).Nodup
  | [], _, _ => by simp [encryptedSpec]
  | (key, value) :: rest, calls, hnd => by
    have hnd2 : (rest.map Prod.fst).Nodup := (List.nodup_cons.1 hnd).2
    have hkrest : key ∉ rest.map Prod.fst := (List.nodup_cons.1 hnd).1
    unfold encryptedSpec
    split_ifs with hv hp
    · simpa using encryptedSpec_nodup lib randomBytes rest (calls + 1) hnd2
    · simp only [List.singleton_append, List.map_cons, List.nodup_cons]
      exact ⟨fun h => hkrest (encryptedSpec_keys lib randomBytes rest _ key h).1,
        encryptedSpec_nodup lib randomBytes rest (calls + 1) hnd2⟩
    · exact encryptedSpec_nodup lib randomBytes rest calls hnd2

theorem lookup_of_not_mem_keys (object : StrObj) (key : JSString)
    (h : key ∉ object.map Prod.fst) : object.lookup key = none := by
  induction object with
  | nil => rfl
  | cons e rest ih =>
    obtain ⟨k, v⟩ := e
    simp only [List.map_cons, List.mem_cons, not_or] at h
    have hne : (key == k) = false := by simpa using h.1
    simp only [List.lookup, hne]
    exact ih h.2

theorem encryptedSpec_lookup (lib : Lib) (randomBytes : Nat → Buffer) :
    ∀ (entries : StrObj) (calls : Nat) (key value : JSString),
      (entries.map Prod.fst).Nodup → (key, value) ∈ entries →
      (truthy value = true → key ≠ js "__proto__" →
        ∃ i, (encryptedSpec lib randomBytes entries calls).lookup key
          = some (tokenOf lib (randomBytes i) value))
      ∧ (truthy value = false →
        (encryptedSpec lib randomBytes entries calls).lookup key = none)
  | [], _, _, _, _, h => by simp at h
  | (k, v) :: rest, calls, key, value, hnd, hmem => by
    have hnd2 : (rest.map Prod.fst).Nodup := (List.nodup_cons.1 hnd).2
    have hkrest : k ∉ rest.map Prod.fst := (List.nodup_cons.1 hnd).1
    rcases List.mem_cons.1 hmem with heq | hin
    · obtain ⟨rfl, rfl⟩ := Prod.mk.inj heq
      constructor
      · intro hv hp
        refine ⟨calls, ?_⟩
        unfold encryptedSpec
        rw [if_pos hv, if_neg hp]
        simp [List.lookup]
      · intro hv
        unfold encryptedSpec
        rw [if_neg (by simp [hv])]
        exact lookup_of_not_mem_keys _ _
          (fun h => hkrest (encryptedSpec_keys lib randomBytes rest _ key h).1)
    · have hne : key ≠ k := by
        rintro rfl
        exact hkrest (List.mem_map.2 ⟨(key, value), hin, rfl⟩)
      have hb : (key == k) = false := by simpa using hne
      unfold encryptedSpec
      split_ifs with hv hp
      · simpa using encryptedSpec_lookup lib randomBytes rest (calls + 1) key value hnd2 hin
      · simp only [List.singleton_append, List.lookup, hb]
        exact encryptedSpec_lookup lib randomBytes rest (calls + 1) key value hnd2 hin
      · exact encryptedSpec_lookup lib randomBytes rest calls key value hnd2 hin

theorem decryptEntries_eq (lib : Lib) :
    ∀ (stored acc : StrObj), (stored.map Prod.fst).Nodup →
      (∀ k ∈ stored.map Prod.fst, k ∉ acc.map Prod.fst ∧ k ≠ js "__proto__") →
      decryptEntries lib stored acc
        = acc ++ stored.map (fun e => (e.1, decryptedValue lib e.2))
  | [], acc, _, _ => by simp [decryptEntries]
  | (key, value) :: rest, acc, hnd, hdis => by
    have hnd2 : (rest.map Prod.fst).Nodup := (List.nodup_cons.1 hnd).2
    have hkrest : key ∉ rest.map Prod.fst := (List.nodup_cons.1 hnd).1
    have hk := hdis key (List.mem_cons_self _ _)
    have step : ∀ d : JSString, decryptEntries lib rest (jsSet acc key d)
        = acc ++ (key, d) :: rest.map (fun e => (e.1, decryptedValue lib e.2)) := by
      intro d
      rw [jsSet_fresh acc key d hk.2 hk.1, decryptEntries_eq lib rest _ hnd2]
      · simp
      · intro k hkin
        refine ⟨fun hmem => ?_, (hdis k (List.mem_cons_of_mem _ hkin)).2⟩
        simp only [List.map_append, List.map_cons, List.map_nil, List.mem_append,
          List.mem_singleton] at hmem
        rcases hmem with h | h
        · exact (hdis k (List.mem_cons_of_mem _ hkin)).1 h
        · exact hkrest (h ▸ hkin)
    unfold decryptEntries
    simp only [List.map_cons, decryptedValue]
    by_cases hv : truthy value = true
    · rw [if_pos hv, if_pos hv]
      cases hd : decrypt lib.aes lib.encryptionKey value with
      | ok d => simp only [step]; rfl
      | error e => simp only [step]; rfl
    · rw [if_neg hv, if_neg hv, step]
      rfl

theorem lookup_map_value (object : StrObj) (f : JSString → JSString) (key : JSString) :
    (object.map (fun e => (e.1, f e.2))).lookup key = (object.lookup key).map f := by
  induction object with
  | nil => rfl
  | cons e rest ih =>
    obtain ⟨k, v⟩ := e
    simp only [List.map_cons, List.lookup]
    cases key == k <;> simp [ih]

theorem decryptedValue_tokenOf (lib : Lib) (hA : lib.aes.Lawful) (iv : Buffer)
    (text : JSString) (hiv : iv.length = IV_LENGTH) (hivb : IsBytes iv) (hne : text ≠ [])
    (hwf : WellFormed text = true) :
    decryptedValue lib (tokenOf lib iv text) = text := by
  obtain ⟨token, h1, h2⟩ := decrypt_encrypt_append lib.aes hA lib.encryptionKey iv text []
    hiv hivb (WellFormed_isJSString text hwf) rfl
  rw [encrypt_eq_tokenOf lib iv text hiv] at h1
  cases h1
  rw [List.append_nil, utf8ToString, utf8Decode_utf8Write text hwf] at h2
  have ht : truthy (tokenOf lib iv text) = true := by
    unfold tokenOf truthy
    cases toHex iv <;> rfl
  have htext : truthy text = true := by
    cases text with
    | nil => exact absurd rfl hne
    | cons c cs => rfl
  unfold decryptedValue
  rw [if_pos ht, h2]
  simp [htext]

theorem findById_saveUser (users : List User) (user found : User)
    (h : findById users user.id = some found) : findById (saveUser users user) user.id = some user := by
  unfold findById saveUser at *
  induction users with
  | nil => simp at h
  | cons u rest ih =>
    simp only [List.map_cons, List.find?_cons] at h ⊢
    by_cases hu : u.id = user.id
    · simp [hu]
    · have hb : (u.id == user.id) = false := by simpa using hu
      rw [hb] at h
      simp only [if_neg hu, hb]
      exact ih h


theorem findById_id (users : List User) (id : Id) (found : User)
    (h : findById users id = some found) : found.id = id := by
  unfold findById at h
  have := List.find?_some h
  simpa using this

/-- C3 (amended): for every map of provider name to string (a plain object,
its keys distinct) that an existing user sends to `saveApiKeys`, the save
answers 200 and a following `getApiKeys` of the same user answers 200 with an
object that holds, for each provider other than `__proto__` whose value was
non-empty and well-formed UTF-16, exactly that original plaintext; for each
provider whose value was the empty string nothing is stored and the object
returned has no entry for that provider. -/
theorem saveApiKeys_then_getApiKeys (lib : Lib) (hA : lib.aes.Lawful)
    (randomBytes : Nat → Buffer)
    (hr : ∀ i, (randomBytes i).length = IV_LENGTH ∧ IsBytes (randomBytes i))
    (caller : Caller) (db : Db) (apiKeys : StrObj)
    (hkeys : (apiKeys.map Prod.fst).Nodup)
    (hcaller : (findById db.users caller.id).isSome = true) :
    ∃ stored returned : StrObj,
      (saveApiKeys lib randomBytes caller db (some apiKeys)).response.status = 200
      ∧ (findById (saveApiKeys lib randomBytes caller db (some apiKeys)).db.users
          caller.id).bind (fun u => u.apiKeys) = some stored
      ∧ (getApiKeys lib caller
          (saveApiKeys lib randomBytes caller db (some apiKeys)).db).response.status = 200
      ∧ (getApiKeys lib caller
          (saveApiKeys lib randomBytes caller db (some apiKeys)).db).response.body.field
            (js "apiKeys") = some (strObjJson returned)
      ∧ ∀ key value, (key, value) ∈ apiKeys →
          (value ≠ [] → WellFormed value = true → key ≠ js "__proto__" →
            jsGet returned key = some value)
          ∧ (value = [] → jsGet stored key = none ∧ jsGet returned key = none) := by
  obtain ⟨found, hfound⟩ := Option.isSome_iff_exists.1 hcaller
  have hid := findById_id _ _ _ hfound
  have henc := encryptEntries_eq lib randomBytes (fun i => (hr i).1) apiKeys 0 [] hkeys
    (fun k _ => by simp)
  rw [List.nil_append] at henc
  obtain ⟨user, huser⟩ : ∃ user : User,
      user = { found with apiKeys := some (encryptedSpec lib randomBytes apiKeys 0) } := ⟨_, rfl⟩
  have huid : user.id = caller.id := by rw [huser]; exact hid
  have hsave : saveApiKeys lib randomBytes caller db (some apiKeys)
      = Outcome.mk (Response.json 200 (.obj [(js "success", .bool true),
          (js "message", .str (js "API keys saved successfully"))]))
        (Db.mk (saveUser db.users user) db.chatHistories db.assignments db.favorites) [] := by
    simp only [saveApiKeys, hfound, henc, huser]
  have hfind : findById (saveUser db.users user) caller.id = some user := by
    have := findById_saveUser db.users user found (by rw [huid]; exact hfound)
    rw [huid] at this
    exact this
  have hkeysOf : user.apiKeys = some (encryptedSpec lib randomBytes apiKeys 0) := by
    rw [huser]
  have hdec := decryptEntries_eq lib (encryptedSpec lib randomBytes apiKeys 0) []
    (encryptedSpec_nodup lib randomBytes apiKeys 0 hkeys)
    (fun k hk => ⟨by simp, (encryptedSpec_keys lib randomBytes apiKeys 0 k hk).2⟩)
  rw [List.nil_append] at hdec
  refine ⟨encryptedSpec lib randomBytes apiKeys 0,
    (encryptedSpec lib randomBytes apiKeys 0).map (fun e => (e.1, decryptedValue lib e.2)),
    ?_, ?_, ?_, ?_, ?_⟩
  · rw [hsave]; rfl
  · rw [hsave]
    simp only [hfind, Option.bind, hkeysOf]
  · rw [hsave]
    simp only [getApiKeys, hfind, hkeysOf]
    rfl
  · rw [hsave]
    simp only [getApiKeys, hfind, hkeysOf, hdec]
    rfl
  · intro key value hmem
    have hl := encryptedSpec_lookup lib randomBytes apiKeys 0 key value hkeys hmem
    constructor
    · intro hne hwf hp
      have htv : truthy value = true := by
        cases value with
        | nil => exact absurd rfl hne
        | cons c cs => rfl
      obtain ⟨i, hi⟩ := hl.1 htv hp
      unfold jsGet
      rw [lookup_map_value, hi, Option.map_some',
        decryptedValue_tokenOf lib hA _ value (hr i).1 (hr i).2 hne hwf]
    · rintro rfl
      have := hl.2 rfl
      unfold jsGet
      rw [lookup_map_value, this]
      exact ⟨rfl, rfl⟩

/-- C3, witness: the user 2 of the sample database saves
`{openai: "sk-abc", anthropic: ""}`. -/
theorem saveApiKeys_then_getApiKeys_witness :
    ∃ stored returned : StrObj,
      (saveApiKeys sampleLib (fun _ => List.replicate 16 0) ⟨2, js "ada@example.com", js "user"⟩
        sampleDb (some [(js "openai", js "sk-abc"), (js "anthropic", [])])).response.status = 200
      ∧ (findById (saveApiKeys sampleLib (fun _ => List.replicate 16 0)
          ⟨2, js "ada@example.com", js "user"⟩ sampleDb
          (some [(js "openai", js "sk-abc"), (js "anthropic", [])])).db.users
          2).bind (fun u => u.apiKeys) = some stored
      ∧ (getApiKeys sampleLib ⟨2, js "ada@example.com", js "user"⟩
          (saveApiKeys sampleLib (fun _ => List.replicate 16 0)
            ⟨2, js "ada@example.com", js "user"⟩ sampleDb
            (some [(js "openai", js "sk-abc"), (js "anthropic", [])])).db).response.status = 200
      ∧ (getApiKeys sampleLib ⟨2, js "ada@example.com", js "user"⟩
          (saveApiKeys sampleLib (fun _ => List.replicate 16 0)
            ⟨2, js "ada@example.com", js "user"⟩ sampleDb
            (some [(js "openai", js "sk-abc"), (js "anthropic", [])])).db).response.body.field
            (js "apiKeys") = some (strObjJson returned)
      ∧ ∀ key value, (key, value) ∈ [(js "openai", js "sk-abc"), (js "anthropic", [])] →
          (value ≠ [] → WellFormed value = true → key ≠ js "__proto__" →
            jsGet returned key = some value)
          ∧ (value = [] → jsGet stored key = none ∧ jsGet returned key = none) :=
  saveApiKeys_then_getApiKeys sampleLib paddingCipher_lawful (fun _ => List.replicate 16 0)
    (fun _ => ⟨show (List.replicate 16 0).length = IV_LENGTH by decide,
      show IsBytes (List.replicate 16 0) by decide⟩) ⟨2, js "ada@example.com", js "user"⟩ sampleDb
    [(js "openai", js "sk-abc"), (js "anthropic", [])] (by decide) (by decide)

/-- C3 as stated fails: after user 2 saves `{openai: ""}`, `getApiKeys` returns
the object `{}`, which has no entry `openai`, and not `{openai: ""}`. The two
restrictions of the amended claim are needed as well: a value that is an
unpaired surrogate comes back as U+FFFD, and a value under the key `__proto__`
is not stored. -/
theorem saveApiKeys_empty_value_absent :
    (getApiKeys sampleLib ⟨2, js "ada@example.com", js "user"⟩
      (saveApiKeys sampleLib (fun _ => List.replicate 16 0) ⟨2, js "ada@example.com", js "user"⟩
        sampleDb (some [(js "openai", [])])).db).response.body
      = .obj [(js "success", .bool true), (js "apiKeys", .obj [])]
    ∧ (Json.obj []).field (js "openai") = none
    ∧ (getApiKeys sampleLib ⟨2, js "ada@example.com", js "user"⟩
      (saveApiKeys sampleLib (fun _ => List.replicate 16 0) ⟨2, js "ada@example.com", js "user"⟩
        sampleDb (some [(js "openai", [55296])])).db).response.body
      = .obj [(js "success", .bool true), (js "apiKeys", .obj [(js "openai", .str [65533])])]
    ∧ (getApiKeys sampleLib ⟨2, js "ada@example.com", js "user"⟩
      (saveApiKeys sampleLib (fun _ => List.replicate 16 0) ⟨2, js "ada@example.com", js "user"⟩
        sampleDb (some [(js "__proto__", js "sk-abc")])).db).response.body
      = .obj [(js "success", .bool true), (js "apiKeys", .obj [])] :=
  ⟨rfl, rfl, rfl, rfl⟩

/-! ### C4: failed logins are indistinguishable -/

/-- C4: for every `Login` request with non-empty email and password, in each
of the three failure cases - no user has that email, the user found has no
stored password hash, the password does not match the stored hash - the
outcome is the same: status 400 with the body `Invalid credentials`, no cookie
set, no mail sent and the database unchanged. Two failing runs therefore have
the same response. -/
theorem Login_failures_identical (lib : Lib) (now : Nat) (db : Db) (req : LoginReq)
    (he : truthyOpt req.email = true) (hp : truthyOpt req.password = true)
    (hfail : findOneByEmail db.users (req.email.getD []) = none
      ∨ (∃ u, findOneByEmail db.users (req.email.getD []) = some u
          ∧ truthyOpt u.password = false)
      ∨ (∃ u, findOneByEmail db.users (req.email.getD []) = some u
          ∧ truthyOpt u.password = true
          ∧ lib.bcryptCompare (req.password.getD []) (u.password.getD []) = false)) :
    Login lib now db req
        = ⟨⟨400, .obj [(js "success", .bool false),
            (js "message", .str (js "Invalid credentials"))], []⟩, db, []⟩ := by
  unfold Login
  simp only [he, hp, Bool.not_true, Bool.or_self, Bool.false_eq_true, if_false]
  rcases hfail with h | ⟨u, h, hpw⟩ | ⟨u, h, hpw, hcmp⟩
  · simp only [h]; rfl
  · simp only [h, hpw, Bool.not_false, if_true]; rfl
  · simp only [h, hpw, hcmp, Bool.not_true, Bool.not_false, Bool.false_eq_true, if_false,
      if_true]; rfl

/-- C4, witness: a login with an email that no user of the sample database has. -/
theorem Login_failures_identical_witness :
    Login sampleLib 5 sampleDb ⟨some (js "nobody@example.com"), some (js "secret1")⟩
        = ⟨⟨400, .obj [(js "success", .bool false),
            (js "message", .str (js "Invalid credentials"))], []⟩, sampleDb, []⟩ :=
  Login_failures_identical sampleLib 5 sampleDb
    ⟨some (js "nobody@example.com"), some (js "secret1")⟩ (by decide) (by decide)
    (Or.inl (by decide))

/-! ### C5: the refresh of the access token -/

/-- C5 (amended): for every request to `refreshTokenController`: with no
(or an empty) `refreshToken` cookie it responds 401; when the verification of
the cookie throws, the refresh cookie is cleared, the database is unchanged
and the status is 403 for a `JsonWebTokenError` or `TokenExpiredError` and 500
for any other error; with a cookie that verifies and whose `userId` is that of
an existing user it responds 200 with a new access token issued for exactly
that `userId`, and changes nothing of the database but that user's
`lastActive`; with a cookie that verifies and whose `userId` is that of no
user it responds 401 and changes nothing. -/
theorem refreshTokenController_cases (lib : Lib) (now : Nat) (db : Db)
    (cookie : Option JSString) :
    (truthyOpt cookie = false →
      refreshTokenController lib now db cookie
        = ⟨⟨401, .obj [(js "message", .str (js "Refresh token not found"))], []⟩, db, []⟩)
    ∧ (truthyOpt cookie = true → ∀ error, lib.jwtVerify (cookie.getD []) = .error error →
        (refreshTokenController lib now db cookie).response.cookies
            = [CookieOp.clear (js "refreshToken")]
        ∧ (refreshTokenController lib now db cookie).db = db
        ∧ ((error.name = js "JsonWebTokenError" ∨ error.name = js "TokenExpiredError") →
            (refreshTokenController lib now db cookie).response.status = 403)
        ∧ (¬ (error.name = js "JsonWebTokenError" ∨ error.name = js "TokenExpiredError") →
            (refreshTokenController lib now db cookie).response.status = 500))
    ∧ (truthyOpt cookie = true → ∀ userId, lib.jwtVerify (cookie.getD []) = .ok userId →
        (∀ found, findById db.users userId = some found →
          refreshTokenController lib now db cookie
            = ⟨⟨200, .obj [(js "accessToken", .str (lib.generateAccessToken userId))], []⟩,
                { db with users := saveUser db.users { found with lastActive := some now } },
                []⟩)
        ∧ (findById db.users userId = none →
          refreshTokenController lib now db cookie
            = ⟨⟨401, .obj [(js "message", .str (js "User not found for refresh token"))], []⟩,
                db, []⟩)) := by
  refine ⟨fun hc => ?_, fun hc error hv => ?_, fun hc userId hv => ⟨fun found hf => ?_, fun hf => ?_⟩⟩
  · simp only [refreshTokenController, hc, Bool.not_false, if_true]; rfl
  · by_cases hn : error.name = js "JsonWebTokenError" ∨ error.name = js "TokenExpiredError"
    · have h : refreshTokenController lib now db cookie
          = ⟨⟨403, .obj [(js "message", .str (js "Invalid or expired refresh token"))],
              clearRefreshTokenCookie []⟩, db, []⟩ := by
        simp only [refreshTokenController, hc, hv, Bool.not_true, Bool.false_eq_true, if_false,
          if_pos hn]
      rw [h]
      exact ⟨rfl, rfl, fun _ => rfl, fun h2 => absurd hn h2⟩
    · have h : refreshTokenController lib now db cookie
          = ⟨⟨500, .obj [(js "message", .str (js "Server error during token refresh"))],
              clearRefreshTokenCookie []⟩, db, []⟩ := by
        simp only [refreshTokenController, hc, hv, Bool.not_true, Bool.false_eq_true, if_false,
          if_neg hn]
      rw [h]
      exact ⟨rfl, rfl, fun h2 => absurd h2 hn, fun _ => rfl⟩
  · simp only [refreshTokenController, hc, hv, hf, Bool.not_true, Bool.false_eq_true, if_false]
    rfl
  · simp only [refreshTokenController, hc, hv, hf, Bool.not_true, Bool.false_eq_true, if_false]
    rfl

/-- C5, instance: the cookie `refresh.2` verifies for user 2 of the sample
database, who gets a new access token for the id 2. -/
theorem refreshTokenController_cases_witness :
    (refreshTokenController sampleLib 5 sampleDb (some (js "refresh.2"))).response.status = 200
    ∧ (refreshTokenController sampleLib 5 sampleDb
        (some (js "refresh.2"))).response.body.field (js "accessToken")
        = some (.str (js "access.2"))
    ∧ ((refreshTokenController sampleLib 5 sampleDb (some (js "refresh.2"))).db.users.map
        (fun u => u.lastActive)) = [none, some 5] := by
  rw [((refreshTokenController_cases sampleLib 5 sampleDb (some (js "refresh.2"))).2.2 rfl 2
    rfl).1 (sampleUser 2 "ada@example.com" "user") rfl]
  exact ⟨rfl, rfl, rfl⟩

/-- C5 as stated fails: the cookie `refresh.2` verifies (for the user id 2),
but in a database from which user 2 was removed the controller responds 401,
not 200. -/
theorem refreshTokenController_valid_cookie_no_user :
    sampleLib.jwtVerify (js "refresh.2") = .ok 2
    ∧ (refreshTokenController sampleLib 5
        { sampleDb with users := [sampleUser 1 "admin@example.com" "admin"] }
        (some (js "refresh.2"))).response.status = 401 := by
  constructor
  · rfl
  · rfl

/-! ### C6: where the tokens of a login go -/

/-- C6 (amended): for every successful `Login` (status 200), the JSON response
body carries the access token under `accessToken` and also the refresh token
under `refreshToken`; the same refresh token is set as the cookie
`refreshToken` by `generateRefreshTokenAndSetCookie`. -/
theorem Login_success_tokens (lib : Lib) (now : Nat) (db : Db) (req : LoginReq) (found : User)
    (he : truthyOpt req.email = true) (hp : truthyOpt req.password = true)
    (hfind : findOneByEmail db.users (req.email.getD []) = some found)
    (hpw : truthyOpt found.password = true)
    (hcmp : lib.bcryptCompare (req.password.getD []) (found.password.getD []) = true) :
    (Login lib now db req).response.status = 200
    ∧ (Login lib now db req).response.body.field (js "accessToken")
        = some (.str (lib.generateAccessToken found.id))
    ∧ (Login lib now db req).response.body.field (js "refreshToken")
        = some (.str (lib.signRefreshToken found.id))
    ∧ (Login lib now db req).response.cookies
        = [CookieOp.set (js "refreshToken") (lib.signRefreshToken found.id)] := by
  have h : Login lib now db req
      = ⟨⟨200, .obj [(js "success", .bool true),
            (js "message", .str (js "Login successful")),
            (js "accessToken", .str (lib.generateAccessToken found.id)),
            (js "refreshToken", .str (lib.signRefreshToken found.id)),
            (js "user", .obj ([(js "_id", .oid found.id), (js "name", .str found.name),
              (js "email", .str found.email)]
              ++ optField "profilePic" (found.profilePic.map .str)
              ++ [(js "role", .str found.role), (js "isVerified", .bool found.isVerified)]))],
          [CookieOp.set (js "refreshToken") (lib.signRefreshToken found.id)]⟩,
          { db with users := saveUser db.users { found with lastActive := some now } }, []⟩ := by
    unfold Login
    simp only [he, hp, hfind, hpw, hcmp, Bool.not_true, Bool.or_self, Bool.false_eq_true,
      if_false]
    rfl
  rw [h]
  refine ⟨rfl, ?_, ?_, rfl⟩
  · rfl
  · rfl

/-- C6, witness: user 2 of the sample database logs in with the right password. -/
theorem Login_success_tokens_witness :
    (Login sampleLib 5 sampleDb ⟨some (js "ada@example.com"), some (js "secret1")⟩).response.status
        = 200
    ∧ (Login sampleLib 5 sampleDb
        ⟨some (js "ada@example.com"), some (js "secret1")⟩).response.body.field (js "accessToken")
        = some (.str (sampleLib.generateAccessToken (sampleUser 2 "ada@example.com" "user").id))
    ∧ (Login sampleLib 5 sampleDb
        ⟨some (js "ada@example.com"), some (js "secret1")⟩).response.body.field (js "refreshToken")
        = some (.str (sampleLib.signRefreshToken (sampleUser 2 "ada@example.com" "user").id))
    ∧ (Login sampleLib 5 sampleDb
        ⟨some (js "ada@example.com"), some (js "secret1")⟩).response.cookies
        = [CookieOp.set (js "refreshToken")
            (sampleLib.signRefreshToken (sampleUser 2 "ada@example.com" "user").id)] :=
  Login_success_tokens sampleLib 5 sampleDb ⟨some (js "ada@example.com"), some (js "secret1")⟩
    (sampleUser 2 "ada@example.com" "user") (by decide) (by decide) (by decide) (by decide)
    (by decide)

/-- C6 as stated fails: the JSON body of the successful login of user 2 of the
sample database has the field `refreshToken`, holding the very token that is
set as the cookie. -/
theorem Login_body_has_refreshToken :
    (Login sampleLib 5 sampleDb
      ⟨some (js "ada@example.com"), some (js "secret1")⟩).response.body.field (js "refreshToken")
      = some (.str (js "refresh.2"))
    ∧ (Login sampleLib 5 sampleDb
      ⟨some (js "ada@example.com"), some (js "secret1")⟩).response.cookies
      = [CookieOp.set (js "refreshToken") (js "refresh.2")] :=
  ⟨rfl, rfl⟩

/-! ### C7: signup -/

theorem sampleLib_hash_ne (p : JSString) : sampleLib.bcryptHash p 10 ≠ p := by
  intro h
  have := congrArg List.length h
  simp [sampleLib, js, jsUnits, utf16Units] at this
  omega

/-- C7: for every `Signup` request (persistence and mail taken to succeed, the
hash of bcrypt taken to differ from its input): `Signup` responds 201 if and
only if name, email and password are all non-empty, no existing user has that
email and the password has length at least 6; it then adds exactly one new
user - unverified, the `password` field holding `bcrypt.hash(password, 10)`
and not the plaintext - and sends the verification mail; in every other case,
in particular for every password of length below 6, it responds 400, the
database is unchanged and no mail is sent. -/
theorem Signup_spec (lib : Lib) (hhash : ∀ p, lib.bcryptHash p 10 ≠ p) (now : Nat)
    (random : ℚ) (newId : Id) (db : Db) (req : SignupReq) :
    ((Signup lib now random newId db req).response.status = 201 ↔ SignupAccepts db req)
    ∧ (SignupAccepts db req →
        ∃ u : User,
          (Signup lib now random newId db req).db = { db with users := db.users ++ [u] }
          ∧ u.isVerified = false
          ∧ u.name = req.name.getD [] ∧ u.email = req.email.getD []
          ∧ u.password = some (lib.bcryptHash (req.password.getD []) 10)
          ∧ u.password ≠ some (req.password.getD [])
          ∧ (Signup lib now random newId db req).emails
              = [Email.verification (req.email.getD []) (verificationCode lib.roundDouble random)]
          ∧ u.verificationToken = some (verificationCode lib.roundDouble random))
    ∧ (¬ SignupAccepts db req →
        (Signup lib now random newId db req).response.status = 400
        ∧ (Signup lib now random newId db req).db = db
        ∧ (Signup lib now random newId db req).emails = []) := by
  by_cases hfields : (!truthyOpt req.name || !truthyOpt req.email || !truthyOpt req.password) = true
  · have hout : Signup lib now random newId db req
        = ⟨Response.json 400 (.obj [(js "success", .bool false),
            (js "message", .str (js "All fields are required"))]), db, []⟩ := by
      unfold Signup; rw [if_pos hfields]
    have hna : ¬ SignupAccepts db req := by
      rintro ⟨h1, h2, h3, -, -⟩
      simp [h1, h2, h3] at hfields
    rw [hout]
    exact ⟨⟨fun h => absurd (show (400 : Nat) = 201 from h) (by decide), fun h => absurd h hna⟩, fun h => absurd h hna,
      fun _ => ⟨rfl, rfl, rfl⟩⟩
  · have hf : truthyOpt req.name = true ∧ truthyOpt req.email = true
        ∧ truthyOpt req.password = true := by
      simp only [Bool.or_eq_true, Bool.not_eq_true', not_or, Bool.not_eq_false] at hfields
      exact ⟨hfields.1.1, hfields.1.2, hfields.2⟩
    cases hfind : findOneByEmail db.users (req.email.getD []) with
    | some existing =>
      have hout : Signup lib now random newId db req
          = ⟨Response.json 400 (.obj [(js "success", .bool false),
              (js "message", .str (js "User already exists"))]), db, []⟩ := by
        unfold Signup; rw [if_neg hfields]; simp only [hfind]
      have hna : ¬ SignupAccepts db req := by
        rintro ⟨-, -, -, h4, -⟩
        rw [hfind] at h4
        exact absurd h4 (by simp)
      rw [hout]
      exact ⟨⟨fun h => absurd (show (400 : Nat) = 201 from h) (by decide), fun h => absurd h hna⟩, fun h => absurd h hna,
        fun _ => ⟨rfl, rfl, rfl⟩⟩
    | none =>
      by_cases hlen : (req.password.getD []).length < 6
      · have hout : Signup lib now random newId db req
            = ⟨Response.json 400 (.obj [(js "success", .bool false),
                (js "message", .str (js "Password must be at least 6 characters long"))]),
                db, []⟩ := by
          unfold Signup; rw [if_neg hfields]; simp only [hfind, if_pos hlen]
        have hna : ¬ SignupAccepts db req := by
          rintro ⟨-, -, -, -, h5⟩
          omega
        rw [hout]
        exact ⟨⟨fun h => absurd (show (400 : Nat) = 201 from h) (by decide), fun h => absurd h hna⟩, fun h => absurd h hna,
          fun _ => ⟨rfl, rfl, rfl⟩⟩
      · have hout : Signup lib now random newId db req
            = ⟨Response.json 201 (.obj [(js "success", .bool true),
                (js "message", .str (js "Signup successful. Please verify your email."))]),
                { db with users := db.users ++ [newSignupUser lib now random newId
                  (req.name.getD []) (req.email.getD []) (req.password.getD []) req.file] },
                [Email.verification (req.email.getD []) (verificationCode lib.roundDouble random)]⟩ := by
          unfold Signup; rw [if_neg hfields]; simp only [hfind, if_neg hlen]
        have ha : SignupAccepts db req := ⟨hf.1, hf.2.1, hf.2.2, hfind, by omega⟩
        rw [hout]
        refine ⟨⟨fun _ => ha, fun _ => rfl⟩, fun _ => ⟨_, rfl, rfl, rfl, rfl, rfl, ?_, rfl, rfl⟩,
          fun h => absurd ha h⟩
        intro h
        exact hhash _ (Option.some.inj h)

/-- C7, witness: a new user signs up at the sample database with a password of
six characters. -/
theorem Signup_spec_witness :
    ((Signup sampleLib 5 (1 / 2) 3 sampleDb
        ⟨some (js "Bob"), some (js "bob@example.com"), some (js "123456"), none⟩).response.status
        = 201
      ↔ SignupAccepts sampleDb
        ⟨some (js "Bob"), some (js "bob@example.com"), some (js "123456"), none⟩)
    ∧ SignupAccepts sampleDb
        ⟨some (js "Bob"), some (js "bob@example.com"), some (js "123456"), none⟩
    ∧ ¬ SignupAccepts sampleDb
        ⟨some (js "Bob"), some (js "bob@example.com"), some (js "12345"), none⟩ :=
  ⟨(Signup_spec sampleLib sampleLib_hash_ne 5 (1 / 2) 3 sampleDb
      ⟨some (js "Bob"), some (js "bob@example.com"), some (js "123456"), none⟩).1,
    by decide, by decide⟩

/-! ### C8: verification of the email -/

theorem findByVerificationCode_some (users : List User) (code : JSString) (now : Nat)
    (u : User) (h : findByVerificationCode users code now = some u) :
    u ∈ users ∧ u.verificationToken = some code
      ∧ ∃ expiry, u.verificationTokenExpiresAt = some expiry ∧ now < expiry := by
  unfold findByVerificationCode at h
  have hm := List.mem_of_find?_eq_some h
  have hp := List.find?_some h
  simp only [Bool.and_eq_true, beq_iff_eq] at hp
  refine ⟨hm, hp.1, ?_⟩
  cases he : u.verificationTokenExpiresAt with
  | none => rw [he] at hp; simp at hp
  | some expiry => rw [he] at hp; exact ⟨expiry, rfl, by simpa using hp.2⟩

theorem findByVerificationCode_none_of_no_token (users : List User) (code : JSString)
    (now : Nat) (h : ∀ v ∈ users, v.verificationToken ≠ some code) :
    findByVerificationCode users code now = none := by
  unfold findByVerificationCode
  rw [List.find?_eq_none]
  intro v hv
  have := h v hv
  simp [this]

/-- C8 (amended): for every user store, code and time `now`: `verifyEmail`
succeeds (200) only if some user's stored `verificationToken` equals the code
exactly and `now` is before that user's `verificationTokenExpiresAt`; it then
sets that user verified and clears the token and its expiry; and when all
documents that hold this code are of one account, a second `verifyEmail` with
the same code, at any later time, fails with 400. -/
theorem verifyEmail_spec (now : Nat) (db : Db) (code : JSString) :
    ((verifyEmail now db code).response.status = 200 →
      ∃ u ∈ db.users, u.verificationToken = some code
        ∧ (∃ expiry, u.verificationTokenExpiresAt = some expiry ∧ now < expiry)
        ∧ (verifyEmail now db code).db
            = { db with users := saveUser db.users (markVerified u) })
    ∧ ((verifyEmail now db code).response.status = 200 →
        (∀ v ∈ db.users, ∀ w ∈ db.users, v.verificationToken = some code →
          w.verificationToken = some code → v.id = w.id) →
        ∀ later : Nat,
          (verifyEmail later (verifyEmail now db code).db code).response.status = 400
          ∧ (verifyEmail later (verifyEmail now db code).db code).db
              = (verifyEmail now db code).db) := by
  cases hfind : findByVerificationCode db.users code now with
  | none =>
    have hout : verifyEmail now db code
        = ⟨Response.json 400 (.obj [(js "success", .bool false),
            (js "message", .str (js "Invalid or expired verification code"))]), db, []⟩ := by
      simp only [verifyEmail, hfind]
    rw [hout]
    exact ⟨fun h => absurd (show (400 : Nat) = 200 from h) (by decide),
      fun h => absurd (show (400 : Nat) = 200 from h) (by decide)⟩
  | some found =>
    obtain ⟨hmem, htok, hexp⟩ := findByVerificationCode_some _ _ _ _ hfind
    have hout : verifyEmail now db code
        = ⟨Response.json 200 (.obj [(js "success", .bool true),
            (js "message", .str (js "Email verified successfully. Welcome to the app!")),
            (js "user", .obj (userDoc (markVerified found)))]),
            { db with users := saveUser db.users (markVerified found) },
            [Email.welcome found.email found.name]⟩ := by
      simp only [verifyEmail, hfind]
      rfl
    rw [hout]
    refine ⟨fun _ => ⟨found, hmem, htok, hexp, rfl⟩, fun _ hone later => ?_⟩
    have hnone : findByVerificationCode (saveUser db.users (markVerified found)) code later
        = none := by
      apply findByVerificationCode_none_of_no_token
      intro v hv
      unfold saveUser at hv
      obtain ⟨w, hw, rfl⟩ := List.mem_map.1 hv
      by_cases hid : w.id = found.id
      · simp [hid, markVerified]
      · have hid2 : ¬ w.id = (markVerified found).id := hid
        rw [if_neg hid2]
        intro hwt
        exact hid (hone w hw found hmem hwt htok)
    have hsecond : verifyEmail later
        { db with users := saveUser db.users (markVerified found) } code
        = ⟨Response.json 400 (.obj [(js "success", .bool false),
            (js "message", .str (js "Invalid or expired verification code"))]),
            { db with users := saveUser db.users (markVerified found) }, []⟩ := by
      simp only [verifyEmail, hnone]
    rw [hsecond]
    exact ⟨rfl, rfl⟩

/-- C8 as stated fails: two users signed up and drew the same code `123456`.
The first `verifyEmail` with that code succeeds, and the second one with the
same code succeeds as well (it verifies the other user), instead of failing
with 400. -/
theorem verifyEmail_same_code_twice :
    (verifyEmail 5 { sampleDb with users :=
        [pendingUser 3 "bob@example.com" "123456", pendingUser 4 "eve@example.com" "123456"] }
      (js "123456")).response.status = 200
    ∧ (verifyEmail 6 (verifyEmail 5 { sampleDb with users :=
        [pendingUser 3 "bob@example.com" "123456", pendingUser 4 "eve@example.com" "123456"] }
      (js "123456")).db (js "123456")).response.status = 200 := by
  constructor
  · rfl
  · rfl

/-- C8, instance: one pending user; the code verifies once and then fails. -/
theorem verifyEmail_spec_witness :
    (verifyEmail 5 { sampleDb with users := [pendingUser 3 "bob@example.com" "123456"] }
      (js "123456")).response.status = 200
    ∧ (verifyEmail 6 (verifyEmail 5
        { sampleDb with users := [pendingUser 3 "bob@example.com" "123456"] }
        (js "123456")).db (js "123456")).response.status = 400 :=
  ⟨rfl, ((verifyEmail_spec 5 { sampleDb with users := [pendingUser 3 "bob@example.com" "123456"] }
      (js "123456")).2 rfl (by decide) 6).1⟩

/-! ### C9: email uniqueness -/

theorem findOneByEmail_none (users : List User) (email : JSString)
    (h : findOneByEmail users email = none) : email ∉ users.map (fun u => u.email) := by
  unfold findOneByEmail at h
  rw [List.find?_eq_none] at h
  intro hm
  obtain ⟨u, hu, rfl⟩ := List.mem_map.1 hm
  exact h u hu (by simp)

theorem findOneByEmail_some (users : List User) (email : JSString) (v : User)
    (hv : v ∈ users) (he : v.email = email) : (findOneByEmail users email).isSome = true := by
  unfold findOneByEmail
  rw [List.find?_isSome]
  exact ⟨v, hv, by simp [he]⟩

theorem findById_mem (users : List User) (id : Id) (found : User)
    (h : findById users id = some found) : found ∈ users := by
  unfold findById at h
  exact List.mem_of_find?_eq_some h

theorem saveUser_ids (users : List User) (user : User) :
    (saveUser users user).map (fun u => u.id) = users.map (fun u => u.id) := by
  unfold saveUser
  rw [List.map_map]
  apply List.map_congr_left
  intro u _
  simp only [Function.comp]
  split_ifs with h
  · exact h.symm
  · rfl

theorem saveUser_emailsUnique (users : List User) (user found : User)
    (hids : IdsUnique users) (hemails : EmailsUnique users)
    (hfound : findById users user.id = some found)
    (he : user.email = found.email ∨ user.email ∉ users.map (fun u => u.email)) :
    EmailsUnique (saveUser users user) := by
  have hmem := findById_mem _ _ _ hfound
  have hfid := findById_id _ _ _ hfound
  unfold EmailsUnique saveUser
  rw [List.map_map]
  have hidinj := List.inj_on_of_nodup_map hids
  have heminj := List.inj_on_of_nodup_map hemails
  refine List.Nodup.map_on ?_ (List.Nodup.of_map _ hemails)
  intro x hx y hy hxy
  simp only [Function.comp] at hxy
  by_cases h1 : x.id = user.id <;> by_cases h2 : y.id = user.id
  · exact hidinj hx hy (h1.trans h2.symm)
  · rw [if_pos h1, if_neg h2] at hxy
    have hxf : x = found := hidinj hx hmem (h1.trans hfid.symm)
    rcases he with he | he
    · exact heminj hx hy (by rw [hxf, ← he, hxy])
    · exact absurd (List.mem_map.2 ⟨y, hy, hxy.symm⟩) he
  · rw [if_neg h1, if_pos h2] at hxy
    have hyf : y = found := hidinj hy hmem (h2.trans hfid.symm)
    rcases he with he | he
    · exact heminj hx hy (by rw [hyf, ← he, hxy])
    · exact absurd (List.mem_map.2 ⟨x, hx, hxy⟩) he
  · rw [if_neg h1, if_neg h2] at hxy
    exact heminj hx hy hxy

theorem updateUserProfileSave_emailsUnique (caller : Caller) (db : Db) (user found : User)
    (name : Option JSString) (hids : IdsUnique db.users) (hemails : EmailsUnique db.users)
    (hid : user.id = caller.id) (hfound : findById db.users caller.id = some found)
    (he : user.email = found.email ∨ user.email ∉ db.users.map (fun u => u.email)) :
    EmailsUnique (updateUserProfileSave caller db user name).db.users := by
  unfold updateUserProfileSave
  simp only
  split_ifs
  · exact saveUser_emailsUnique db.users _ found hids hemails (by rw [← hid] at hfound; exact hfound) he
  · exact saveUser_emailsUnique db.users _ found hids hemails (by rw [← hid] at hfound; exact hfound) he

/-- C9: email uniqueness is an invariant of the user store under the handlers
that write the email field. For every store in which no two users share an
email (and no two documents share an `_id`), after any `Signup` call and after
any `updateUserProfile` call still no two users share an email; and
`updateUserProfile` responds 400 and changes nothing when the caller's account
exists and the requested email belongs to a different existing account. -/
theorem email_unique_invariant (db : Db) (hids : IdsUnique db.users)
    (hemails : EmailsUnique db.users) :
    (∀ (lib : Lib) (now : Nat) (random : ℚ) (newId : Id) (req : SignupReq),
      EmailsUnique (Signup lib now random newId db req).db.users)
    ∧ (∀ (caller : Caller) (name email : Option JSString),
      EmailsUnique (updateUserProfile caller db name email).db.users)
    ∧ (∀ (caller : Caller) (name email : Option JSString) (other : User),
      (findById db.users caller.id).isSome = true → truthyOpt email = true →
      other ∈ db.users → other.email = email.getD [] → other.id ≠ caller.id →
      (updateUserProfile caller db name email).response.status = 400
        ∧ (updateUserProfile caller db name email).db = db) := by
  refine ⟨?_, ?_, ?_⟩
  · intro lib now random newId req
    unfold Signup
    split_ifs with h1
    · exact hemails
    · simp only
      cases hfind : findOneByEmail db.users (req.email.getD []) with
      | some existing => exact hemails
      | none =>
        simp only
        split_ifs
        · exact hemails
        · unfold EmailsUnique
          simp only [List.map_append, List.map_cons, List.map_nil]
          rw [List.nodup_append]
          refine ⟨hemails, List.nodup_singleton _, ?_⟩
          intro a ha hb
          rw [List.mem_singleton] at hb
          subst hb
          exact findOneByEmail_none _ _ hfind ha
  · intro caller name email
    unfold updateUserProfile
    split_ifs with h1
    · exact hemails
    · cases hfound : findById db.users caller.id with
      | none => exact hemails
      | some found =>
        have hfid := findById_id _ _ _ hfound
        simp only
        split_ifs with h2
        · cases hfind : findOneByEmail db.users (email.getD []) with
          | some existing => exact hemails
          | none =>
            exact updateUserProfileSave_emailsUnique caller db _ found name hids hemails hfid
              hfound (Or.inr (findOneByEmail_none _ _ hfind))
        · exact updateUserProfileSave_emailsUnique caller db found found name hids hemails hfid
            hfound (Or.inl rfl)
  · intro caller name email other hcaller hemail hother hoe hoid
    obtain ⟨found, hfound⟩ := Option.isSome_iff_exists.1 hcaller
    have hfid := findById_id _ _ _ hfound
    have hmem := findById_mem _ _ _ hfound
    have hne : (email.getD [] != found.email) = true := by
      rw [bne_iff_ne]
      intro heq
      have : other = found :=
        List.inj_on_of_nodup_map hemails hother hmem (by rw [hoe, heq])
      exact hoid (by rw [this, hfid])
    obtain ⟨existing, hex⟩ := Option.isSome_iff_exists.1
      (findOneByEmail_some db.users (email.getD []) other hother hoe)
    have h1 : ¬ ((!truthyOpt name && !truthyOpt email) = true) := by simp [hemail]
    have hout : updateUserProfile caller db name email
        = ⟨Response.json 400 (.obj [(js "success", .bool false),
            (js "message", .str (js "Email address already in use."))]), db, []⟩ := by
      unfold updateUserProfile
      rw [if_neg h1]
      simp only [hfound, hemail, hne, Bool.and_self, if_true, hex]
    rw [hout]
    exact ⟨rfl, rfl⟩

/-- C9, witness: the sample database, whose two users have different emails
and ids; user 2 asks for the email of user 1 and is refused. -/
theorem email_unique_invariant_witness :
    (updateUserProfile ⟨2, js "ada@example.com", js "user"⟩ sampleDb none
        (some (js "admin@example.com"))).response.status = 400
    ∧ (updateUserProfile ⟨2, js "ada@example.com", js "user"⟩ sampleDb none
        (some (js "admin@example.com"))).db = sampleDb
    ∧ EmailsUnique (updateUserProfile ⟨2, js "ada@example.com", js "user"⟩ sampleDb none
        (some (js "ada@new.example.com"))).db.users :=
  ⟨((email_unique_invariant sampleDb (by decide) (by decide)).2.2
      ⟨2, js "ada@example.com", js "user"⟩ none (some (js "admin@example.com"))
      (sampleUser 1 "admin@example.com" "admin") (by decide) (by decide) (by decide) (by decide)
      (by decide)).1,
    ((email_unique_invariant sampleDb (by decide) (by decide)).2.2
      ⟨2, js "ada@example.com", js "user"⟩ none (some (js "admin@example.com"))
      (sampleUser 1 "admin@example.com" "admin") (by decide) (by decide) (by decide) (by decide)
      (by decide)).2,
    (email_unique_invariant sampleDb (by decide) (by decide)).2.1
      ⟨2, js "ada@example.com", js "user"⟩ none (some (js "ada@new.example.com"))⟩

/-! ### C10: admin operations refuse other callers -/

/-- C10: for every authenticated caller whose role is not `admin` and every
request, each admin operation - `getAllUsers`, `getUsersWithGptCounts`,
`updateUserPermissions` and `removeTeamMember` - responds 403 with a body that
holds a fixed message only (no user data), sends no mail and leaves every
collection unchanged. -/
theorem admin_operations_forbidden (caller : Caller) (hrole : caller.role ≠ js "admin")
    (lib : Lib) (db : Db) (skipError : JsError) (beyond : Outcome)
    (queryPage queryLimit : Option JSString)
    (userId : Id) (role department : Option JSString) (faults : TxFaults) :
    getAllUsers caller db
        = ⟨⟨403, .obj [(js "message", .str (js "Not authorized to access this resource"))],
            []⟩, db, []⟩
    ∧ getUsersWithGptCounts skipError beyond caller db queryPage queryLimit
        = ⟨⟨403, .obj [(js "success", .bool false), (js "message", .str (js "Not authorized"))],
            []⟩, db, []⟩
    ∧ updateUserPermissions lib caller db userId role department
        = ⟨⟨403, .obj [(js "success", .bool false),
            (js "message", .str (js "Only admins can update user permissions"))], []⟩, db, []⟩
    ∧ removeTeamMember faults caller db userId
        = ⟨⟨403, .obj [(js "success", .bool false),
            (js "message", .str (js "Only admins can remove team members"))], []⟩, db, []⟩ := by
  have h : notAdmin caller = true := by
    unfold notAdmin
    rw [bne_iff_ne]
    exact hrole
  refine ⟨?_, ?_, ?_, ?_⟩
  · unfold getAllUsers; rw [if_pos h]; rfl
  · unfold getUsersWithGptCounts; rw [if_pos h]; rfl
  · unfold updateUserPermissions; rw [if_pos h]; rfl
  · unfold removeTeamMember; rw [if_pos h]; rfl

/-- C10, witness: user 2 of the sample database, whose role is `user`, calls
the four admin operations. -/
theorem admin_operations_forbidden_witness :
    getAllUsers ⟨2, js "ada@example.com", js "user"⟩ sampleDb
        = ⟨⟨403, .obj [(js "message", .str (js "Not authorized to access this resource"))],
            []⟩, sampleDb, []⟩
    ∧ getUsersWithGptCounts JsError.generic sampleOutcome ⟨2, js "ada@example.com", js "user"⟩
        sampleDb (some (js "2")) (some (js "10"))
        = ⟨⟨403, .obj [(js "success", .bool false), (js "message", .str (js "Not authorized"))],
            []⟩, sampleDb, []⟩
    ∧ updateUserPermissions sampleLib ⟨2, js "ada@example.com", js "user"⟩ sampleDb 2
        (some (js "admin")) none
        = ⟨⟨403, .obj [(js "success", .bool false),
            (js "message", .str (js "Only admins can update user permissions"))], []⟩,
            sampleDb, []⟩
    ∧ removeTeamMember TxFaults.none ⟨2, js "ada@example.com", js "user"⟩ sampleDb 1
        = ⟨⟨403, .obj [(js "success", .bool false),
            (js "message", .str (js "Only admins can remove team members"))], []⟩,
            sampleDb, []⟩ :=
  admin_operations_forbidden ⟨2, js "ada@example.com", js "user"⟩ (by decide) sampleLib sampleDb
    JsError.generic sampleOutcome (some (js "2")) (some (js "10")) 2 (some (js "admin")) none
    TxFaults.none

/-! ### C11: the cascading removal of a user -/

theorem notAdmin_of_admin (caller : Caller) (h : caller.role = js "admin") :
    notAdmin caller = false := by
  unfold notAdmin
  rw [h]
  simp

/-- C11: for every admin caller and every existing target `userId`,
`removeTeamMember` either removes the user record together with every
`ChatHistory`, `UserGptAssignment` and `UserFavorite` record whose `userId` is
the target, leaving the records of all other users unchanged, or removes
nothing, all four collections being as before. When any of the four deletions
fails it removes nothing (and responds 500); when nothing fails it removes
everything (and responds 200). -/
theorem removeTeamMember_all_or_nothing (faults : TxFaults) (caller : Caller)
    (hadmin : caller.role = js "admin") (db : Db) (userId : Id)
    (hexists : (findById db.users userId).isSome = true) :
    ((removeTeamMember faults caller db userId).db = withoutUser db userId
        ∨ (removeTeamMember faults caller db userId).db = db)
    ∧ ((faults.chatHistory.isSome = true ∨ faults.gptAssignments.isSome = true
          ∨ faults.favorites.isSome = true ∨ faults.user.isSome = true) →
        (removeTeamMember faults caller db userId).db = db
        ∧ (removeTeamMember faults caller db userId).response.status = 500)
    ∧ (faults = TxFaults.none →
        (removeTeamMember faults caller db userId).db = withoutUser db userId
        ∧ (removeTeamMember faults caller db userId).response.status = 200)
    ∧ (∀ u, u ∈ (withoutUser db userId).users ↔ u ∈ db.users ∧ u.id ≠ userId)
    ∧ (∀ r, r ∈ (withoutUser db userId).chatHistories ↔
        r ∈ db.chatHistories ∧ r.userId ≠ userId)
    ∧ (∀ r, r ∈ (withoutUser db userId).assignments ↔ r ∈ db.assignments ∧ r.userId ≠ userId)
    ∧ (∀ r, r ∈ (withoutUser db userId).favorites ↔ r ∈ db.favorites ∧ r.userId ≠ userId) := by
  obtain ⟨found, hfound⟩ := Option.isSome_iff_exists.1 hexists
  have hna := notAdmin_of_admin caller hadmin
  have hunf : removeTeamMember faults caller db userId
      = match faults.chatHistory <|> faults.gptAssignments <|> faults.favorites <|> faults.user with
        | some error =>
          ⟨Response.json 500 (.obj [(js "success", .bool false),
            (js "message", .str (js "Failed to remove team member")),
            (js "error", .str error.message)]), db, []⟩
        | none =>
          match faults.commit with
          | some _ => ⟨Response.json 200 (.obj [(js "success", .bool true),
              (js "message", .str (js "User and all associated data removed successfully")),
              (js "deletionResults", .obj [
                (js "chatHistory",
                  deleteResult (db.chatHistories.filter (fun r => r.userId == userId)).length),
                (js "gptAssignments",
                  deleteResult (db.assignments.filter (fun r => r.userId == userId)).length),
                (js "favorites",
                  deleteResult (db.favorites.filter (fun r => r.userId == userId)).length),
                (js "user", .bool true)])]), db, []⟩
          | none => ⟨Response.json 200 (.obj [(js "success", .bool true),
              (js "message", .str (js "User and all associated data removed successfully")),
              (js "deletionResults", .obj [
                (js "chatHistory",
                  deleteResult (db.chatHistories.filter (fun r => r.userId == userId)).length),
                (js "gptAssignments",
                  deleteResult (db.assignments.filter (fun r => r.userId == userId)).length),
                (js "favorites",
                  deleteResult (db.favorites.filter (fun r => r.userId == userId)).length),
                (js "user", .bool true)])]), withoutUser db userId, []⟩ := by
    unfold removeTeamMember
    simp only [hna, Bool.false_eq_true, if_false, hfound]
    rfl
  rw [hunf]
  refine ⟨?_, ?_, ?_, ?_, ?_, ?_, ?_⟩
  · cases faults.chatHistory <|> faults.gptAssignments <|> faults.favorites <|> faults.user with
    | some e => exact Or.inr rfl
    | none =>
      cases faults.commit with
      | some e => exact Or.inr rfl
      | none => exact Or.inl rfl
  · intro hf
    have : ∃ e, (faults.chatHistory <|> faults.gptAssignments <|> faults.favorites
        <|> faults.user) = some e := by
      cases h1 : faults.chatHistory with
      | some e => exact ⟨e, rfl⟩
      | none =>
        cases h2 : faults.gptAssignments with
        | some e => exact ⟨e, rfl⟩
        | none =>
          cases h3 : faults.favorites with
          | some e => exact ⟨e, rfl⟩
          | none =>
            cases h4 : faults.user with
            | some e => exact ⟨e, rfl⟩
            | none => simp [h1, h2, h3, h4] at hf
    obtain ⟨e, he⟩ := this
    rw [he]
    exact ⟨rfl, rfl⟩
  · rintro rfl
    exact ⟨rfl, rfl⟩
  · intro u
    simp [withoutUser, List.mem_filter]
  · intro r
    simp [withoutUser, List.mem_filter]
  · intro r
    simp [withoutUser, List.mem_filter]
  · intro r
    simp [withoutUser, List.mem_filter]

/-- C11, witness: the admin of the sample database removes user 2, once with
no fault and once with a failing deletion of the favorites. -/
theorem removeTeamMember_all_or_nothing_witness :
    (removeTeamMember TxFaults.none ⟨1, js "admin@example.com", js "admin"⟩ sampleDb 2).db
        = ⟨[sampleUser 1 "admin@example.com" "admin"], [], [], []⟩
    ∧ (removeTeamMember ⟨none, none, some JsError.generic, none, none⟩
        ⟨1, js "admin@example.com", js "admin"⟩ sampleDb 2).db = sampleDb :=
  ⟨((removeTeamMember_all_or_nothing TxFaults.none ⟨1, js "admin@example.com", js "admin"⟩
      (by decide) sampleDb 2 (by decide)).2.2.1 rfl).1.trans (by decide),
    ((removeTeamMember_all_or_nothing ⟨none, none, some JsError.generic, none, none⟩
      ⟨1, js "admin@example.com", js "admin"⟩ (by decide) sampleDb 2 (by decide)).2.1
      (Or.inr (Or.inr (Or.inl rfl)))).1⟩

/-! ### C12: the page of users with their counts -/

theorem leadingDigits_digits (d : JSString) (hd : ∀ u ∈ d, 48 ≤ u ∧ u ≤ 57) :
    ∀ (acc : Nat) (seen : Bool),
      leadingDigits d acc seen
        = (d.foldl (fun a u => a * 10 + (u - 48)) acc, seen || !d.isEmpty) := by
  induction d with
  | nil => intro acc seen; simp [leadingDigits]
  | cons u rest ih =>
    intro acc seen
    have hu := hd u (List.mem_cons_self _ _)
    have hrest : ∀ v ∈ rest, 48 ≤ v ∧ v ≤ 57 := fun v hv => hd v (List.mem_cons_of_mem _ hv)
    rw [leadingDigits, if_pos hu, ih hrest]
    simp

theorem decimalDigits_value :
    ∀ (fuel n : Nat) (acc : JSString), n < 10 ^ (fuel + 1) →
      ∃ d : JSString, decimalDigits (fuel + 1) n acc = d ++ acc ∧ d ≠ []
        ∧ (∀ u ∈ d, 48 ≤ u ∧ u ≤ 57)
        ∧ ∀ a : Nat, d.foldl (fun a u => a * 10 + (u - 48)) a = a * 10 ^ d.length + n := by
  intro fuel
  induction fuel with
  | zero =>
    intro n acc h
    have hn : n < 10 := by simpa using h
    refine ⟨[48 + n], ?_, by simp, ?_, ?_⟩
    · simp [decimalDigits, hn]
    · intro u hu
      simp only [List.mem_singleton] at hu
      omega
    · intro a
      simp
  | succ fuel ih =>
    intro n acc h
    by_cases hn : n < 10
    · refine ⟨[48 + n], ?_, by simp, ?_, ?_⟩
      · simp [decimalDigits, hn]
      · intro u hu
        simp only [List.mem_singleton] at hu
        omega
      · intro a
        simp
    · have hdiv : n / 10 < 10 ^ (fuel + 1) := by
        rw [Nat.div_lt_iff_lt_mul (by decide)]
        rw [pow_succ] at h
        exact h
      obtain ⟨d, hd, hne, hdig, hval⟩ := ih (n / 10) ((48 + n % 10) :: acc) hdiv
      refine ⟨d ++ [48 + n % 10], ?_, by simp, ?_, ?_⟩
      · rw [decimalDigits, if_neg hn, hd, List.append_assoc, List.singleton_append]
      · intro u hu
        rcases List.mem_append.1 hu with h1 | h1
        · exact hdig u h1
        · simp only [List.mem_singleton] at h1
          omega
      · intro a
        rw [List.foldl_append, hval a]
        simp only [List.foldl_cons, List.foldl_nil, List.length_append, List.length_singleton,
          pow_succ]
        have h48 : 48 + n % 10 - 48 = n % 10 := by omega
        rw [h48]
        have := Nat.div_add_mod n 10
        nlinarith [this]

theorem parseIntDigits_numberToString (n : Nat) :
    parseIntDigits (some (numberToString n)) = some (n : Int) := by
  have hlt : n < 10 ^ (n + 1) :=
    lt_of_lt_of_le (Nat.lt_pow_self (by decide) n) (Nat.pow_le_pow_right (by decide) (by omega))
  obtain ⟨d, hd, hne, hdig, hval⟩ := decimalDigits_value n n [] hlt
  rw [List.append_nil] at hd
  unfold numberToString
  rw [hd]
  cases d with
  | nil => exact absurd rfl hne
  | cons u rest =>
    have hu := hdig u (List.mem_cons_self _ _)
    have hws : isWhiteSpace u = false := by
      unfold isWhiteSpace
      simp only [Bool.or_eq_false_iff, beq_eq_false_iff_ne, Bool.and_eq_false_iff,
        decide_eq_false_iff_not]
      omega
    have h45 : u ≠ 45 := by omega
    have h43 : u ≠ 43 := by omega
    have hl := leadingDigits_digits (u :: rest) hdig 0 false
    rw [hval 0] at hl
    simp only [Nat.zero_mul, Nat.zero_add, List.isEmpty_cons, Bool.not_false, Bool.or_true] at hl
    unfold parseIntDigits
    simp only [List.dropWhile_cons, hws, Bool.false_eq_true, if_false]
    split
    · rename_i heq; exact absurd (List.cons.inj heq).1 h45
    · rename_i heq; exact absurd (List.cons.inj heq).1 h43
    · rw [hl]

theorem toJsInteger_exact (n : Int) (h : n.natAbs ≤ maxExactInteger) :
    toJsInteger n = .exact n := by
  unfold toJsInteger
  rw [if_pos h]

theorem parseInt10_numberToString (n : Nat) (h : n ≤ maxExactInteger) :
    parseInt10 (some (numberToString n)) = .exact (n : Int) := by
  unfold parseInt10
  rw [parseIntDigits_numberToString]
  exact toJsInteger_exact _ (by simpa using h)

theorem orElse_exact_ne_zero (value : JsInteger) (fallback n : Int) (h : fallback ≠ 0)
    (hv : orElse value fallback = .exact n) : n ≠ 0 := by
  unfold orElse at hv
  cases value with
  | nan => cases hv; exact h
  | beyond => cases hv
  | exact m =>
    simp only at hv
    split_ifs at hv with hm
    · cases hv; exact h
    · cases hv; exact hm

theorem newerFirst_sorted_perm (users : List User) :
    (users.insertionSort newerFirst).Perm users
      ∧ (users.insertionSort newerFirst).Sorted newerFirst := by
  haveI : IsTotal User newerFirst := ⟨fun a b => Nat.le_total b.createdAt a.createdAt⟩
  haveI : IsTrans User newerFirst :=
    ⟨fun a b c (hab : b.createdAt ≤ a.createdAt) (hbc : c.createdAt ≤ b.createdAt) =>
      Nat.le_trans hbc hab⟩
  exact ⟨List.perm_insertionSort _ _, List.sorted_insertionSort _ _⟩

/-- C12 (amended): for every admin caller and every query whose `page` and
`limit` - the integers `parseInt` reads, with 1 and 10 in place of `NaN` and
of 0 - are not negative and, with `skip = (page - 1) * limit`, at most `2^53`,
the bound of exact JavaScript numbers, `getUsersWithGptCounts` responds 200
with `page`, `limit`, `total` = the number of all users other than the caller,
and exactly the users at positions `skip + 1 .. skip + limit` of a list of
all users other than the caller ordered by `createdAt` descending, each
with `gptCount` equal to the number of `UserGptAssignment` records of that
user (0 when none); the database is unchanged. A missing parameter reads as
`NaN`, and the decimal numeral of `n`, `n` at most `2^53`, reads as `n`. -/
theorem getUsersWithGptCounts_page (skipError : JsError) (beyond : Outcome) (caller : Caller)
    (hadmin : caller.role = js "admin") (db : Db) (queryPage queryLimit : Option JSString)
    (page limit : Nat)
    (hpage : orElse (parseInt10 queryPage) 1 = .exact (page : Int))
    (hlimit : orElse (parseInt10 queryLimit) 10 = .exact (limit : Int))
    (hexact : (page - 1) * limit ≤ maxExactInteger) :
    (∃ ordered : List User,
      ordered.Perm (db.users.filter (fun u => u.id != caller.id))
      ∧ ordered.Sorted (fun a b => b.createdAt ≤ a.createdAt)
      ∧ getUsersWithGptCounts skipError beyond caller db queryPage queryLimit
          = ⟨Response.json 200 (.obj [(js "success", .bool true),
              (js "users", .arr (((ordered.drop ((page - 1) * limit)).take limit).map
                (userWithCount db.assignments))),
              (js "total", .num (db.users.filter (fun u => u.id != caller.id)).length),
              (js "page", .num page),
              (js "limit", .num limit)]), db, []⟩)
    ∧ 1 ≤ page ∧ 1 ≤ limit
    ∧ (∀ (u : User), (userWithCount db.assignments u).field (js "gptCount")
        = some (.num ((db.assignments.filter (fun a => a.userId == u.id)).length : Nat)))
    ∧ parseInt10 none = .nan
    ∧ (∀ fallback : Int, orElse .nan fallback = .exact fallback
        ∧ orElse (.exact 0) fallback = .exact fallback)
    ∧ (∀ n : Nat, n ≤ maxExactInteger →
        parseInt10 (some (numberToString n)) = .exact (n : Int)) := by
  have hp1 : 1 ≤ page := by
    have := orElse_exact_ne_zero (parseInt10 queryPage) 1 page (by decide) hpage
    have : page ≠ 0 := fun h => this (by rw [h]; rfl)
    omega
  have hl1 : 1 ≤ limit := by
    have := orElse_exact_ne_zero (parseInt10 queryLimit) 10 limit (by decide) hlimit
    have : limit ≠ 0 := fun h => this (by rw [h]; rfl)
    omega
  have hsp := newerFirst_sorted_perm (db.users.filter (fun u => u.id != caller.id))
  have hcast : ((page : Int) - 1) * (limit : Int) = (((page - 1) * limit : Nat) : Int) := by
    push_cast [Nat.cast_sub hp1]
    ring
  have hskip : ¬ (((page : Int) - 1) * (limit : Int) < 0) := by
    rw [hcast]
    omega
  have htoNat : Int.toNat (((page : Int) - 1) * (limit : Int)) = (page - 1) * limit := by
    rw [hcast, Int.toNat_natCast]
  have hle : page - 1 ≤ (page - 1) * limit := Nat.le_mul_of_pos_right _ hl1
  have hpm : toJsInteger ((page : Int) - 1) = .exact ((page : Int) - 1) := by
    apply toJsInteger_exact
    have : (page : Int) - 1 = ((page - 1 : Nat) : Int) := by
      push_cast [Nat.cast_sub hp1]
      ring
    rw [this, Int.natAbs_ofNat]
    omega
  have hsk : toJsInteger (((page : Int) - 1) * (limit : Int))
      = .exact (((page : Int) - 1) * (limit : Int)) := by
    apply toJsInteger_exact
    rw [hcast, Int.natAbs_ofNat]
    exact hexact
  refine ⟨⟨_, hsp.1, hsp.2, ?_⟩, hp1, hl1, ?_, rfl, fun fallback => ⟨rfl, rfl⟩,
    parseInt10_numberToString⟩
  · unfold getUsersWithGptCounts
    rw [notAdmin_of_admin caller hadmin]
    simp only [Bool.false_eq_true, if_false, hpage, hlimit, hpm, hsk]
    unfold usersPage
    simp only [if_neg hskip, htoNat, Int.natAbs_ofNat]
    rfl
  · intro u
    cases hla : u.lastActive <;>
      simp [userWithCount, Json.field, optField, hla, List.lookup, gptCount, js, jsUnits,
        utf16Units]

/-- C12, witness: the admin of the paged database asks for page 2 with limit 1
and gets the second most recently created of the three other users, user 4. -/
theorem getUsersWithGptCounts_page_witness :
    (∃ ordered : List User,
      ordered.Perm (pagedDb.users.filter (fun u => u.id != 1))
      ∧ ordered.Sorted (fun a b => b.createdAt ≤ a.createdAt)
      ∧ getUsersWithGptCounts JsError.generic sampleOutcome
          ⟨1, js "admin@example.com", js "admin"⟩ pagedDb (some (js "2")) (some (js "1"))
          = ⟨Response.json 200 (.obj [(js "success", .bool true),
              (js "users", .arr (((ordered.drop ((2 - 1) * 1)).take 1).map
                (userWithCount pagedDb.assignments))),
              (js "total", .num (pagedDb.users.filter (fun u => u.id != 1)).length),
              (js "page", .num (2 : Nat)),
              (js "limit", .num (1 : Nat))]), pagedDb, []⟩)
    ∧ (getUsersWithGptCounts JsError.generic sampleOutcome
          ⟨1, js "admin@example.com", js "admin"⟩ pagedDb
          (some (js "2")) (some (js "1"))).response.body.field (js "users")
        = some (.arr [userWithCount pagedDb.assignments (sampleUserAt 4 "c@example.com" 2000)]) :=
  ⟨(getUsersWithGptCounts_page JsError.generic sampleOutcome
      ⟨1, js "admin@example.com", js "admin"⟩ (by decide) pagedDb (some (js "2"))
      (some (js "1")) 2 1 (by decide) (by decide) (by decide)).1,
    rfl⟩

/-- C12 as stated fails: a `page` or `limit` of 0 is a number, and it is not
taken from the query. For `page=0&limit=0` the admin of the paged database gets
`page: 1`, `limit: 10` and all three other users, not page 0 with no user. -/
theorem getUsersWithGptCounts_zero_page :
    (getUsersWithGptCounts JsError.generic sampleOutcome
        ⟨1, js "admin@example.com", js "admin"⟩ pagedDb
        (some (js "0")) (some (js "0"))).response.body
      = .obj [(js "success", .bool true),
          (js "users", .arr [userWithCount pagedDb.assignments (sampleUserAt 2 "a@example.com" 3000),
            userWithCount pagedDb.assignments (sampleUserAt 4 "c@example.com" 2000),
            userWithCount pagedDb.assignments (sampleUserAt 3 "b@example.com" 1000)]),
          (js "total", .num 3), (js "page", .num 1), (js "limit", .num 10)] :=
  rfl

/-! ### C13: the key of the codec -/

theorem deriveKey_short (secret : Buffer) (h : secret.length < 32) :
    deriveKey secret = secret ++ List.replicate (32 - secret.length) 0 := by
  unfold deriveKey bufferCopy
  rw [if_pos (by omega)]
  have hm : min secret.length 32 = secret.length := by omega
  rw [hm, List.take_length, List.drop_replicate]

theorem deriveKey_long (secret : Buffer) (h : 32 < secret.length) :
    deriveKey secret = secret.take 32 := by
  unfold deriveKey bufferCopy
  rw [if_pos (by omega)]
  have hm : min secret.length 32 = 32 := by omega
  have hl : (secret.take 32).length = 32 := by rw [List.length_take]; omega
  rw [hm, hl, List.drop_replicate]
  simp

theorem ENCRYPTION_KEY_configured (secret : JSString) (hne : secret ≠ []) :
    ENCRYPTION_KEY (some secret) = secret := by
  cases secret with
  | nil => exact absurd rfl hne
  | cons c cs => rfl

/-- C13 (amended): for every non-empty configured secret, `secret`, with the
byte string `s` of its UTF-8 encoding, `encrypt` and `decrypt` hand the same
key to the cipher, and that key is exactly 32 bytes long: `s` itself when `s`
has 32 bytes, the first 32 bytes of `s` when it is longer, and `s` followed by
zero bytes up to length 32 when it is shorter. When the environment sets no
secret or an empty one, the 39-byte fallback literal takes its place, and the
key is its first 32 bytes. -/
theorem deriveKey_spec (secret : JSString) (hne : secret ≠ []) :
    ENCRYPTION_KEY (some secret) = secret
    ∧ (deriveKey (utf8Write secret)).length = 32
    ∧ ((utf8Write secret).length = 32 → deriveKey (utf8Write secret) = utf8Write secret)
    ∧ (32 < (utf8Write secret).length →
        deriveKey (utf8Write secret) = (utf8Write secret).take 32)
    ∧ ((utf8Write secret).length < 32 →
        deriveKey (utf8Write secret)
          = utf8Write secret ++ List.replicate (32 - (utf8Write secret).length) 0)
    ∧ (∀ (A : Aes256Cbc) (iv : Buffer) (text : JSString), iv.length = IV_LENGTH →
        encrypt A (some secret) iv text
          = .ok (toHex iv ++ 58 :: toHex
              (A.cipher (deriveKey (utf8Write secret)) iv (utf8Write text))))
    ∧ (∀ (A : Aes256Cbc) (text : JSString), 58 ∈ text →
        (fromHex (beforeColon text)).length = IV_LENGTH →
        decrypt A (some secret) text
          = match A.decipher (deriveKey (utf8Write secret))
              (fromHex (beforeColon text)) (fromHex (afterColon text)) with
            | some decrypted => .ok (utf8ToString decrypted)
            | none => .ok [])
    ∧ ENCRYPTION_KEY none = js "your-secure-encryption-key-exactly-32-b"
    ∧ ENCRYPTION_KEY (some []) = js "your-secure-encryption-key-exactly-32-b"
    ∧ deriveKey (utf8Write (js "your-secure-encryption-key-exactly-32-b"))
        = utf8Write (js "your-secure-encryption-key-exact") := by
  have hk := ENCRYPTION_KEY_configured secret hne
  have hlen := deriveKey_length (utf8Write secret)
  refine ⟨hk, hlen, fun h => ?_, deriveKey_long _, deriveKey_short _,
    fun A iv text hiv => ?_, fun A text hc hiv => ?_, rfl, rfl, by decide⟩
  · unfold deriveKey
    rw [if_neg (by omega)]
  · have hiv16 : iv.length = 16 := hiv
    simp [encrypt, runCipher, hk, hlen, hiv16]
  · have h16 : (fromHex (beforeColon text)).length = 16 := hiv
    have hn16 : ¬ (fromHex (beforeColon text)).length ≠ 16 := fun h => h h16
    unfold decrypt
    rw [decryptTry_colon A (some secret) text hc, if_neg hn16, hk]
    simp only [runDecipher, hlen, h16, and_self, if_true]
    cases A.decipher (deriveKey (utf8Write secret)) (fromHex (beforeColon text))
      (fromHex (afterColon text)) <;> rfl

/-- C13, witness: the configured secret `short` gives the key `short`
followed by 27 zero bytes. -/
theorem deriveKey_spec_witness :
    ENCRYPTION_KEY (some (js "short")) = js "short"
    ∧ deriveKey (utf8Write (js "short")) = utf8Write (js "short") ++ List.replicate 27 0 :=
  ⟨(deriveKey_spec (js "short") (by decide)).1,
    (deriveKey_spec (js "short") (by decide)).2.2.2.2.1 (by decide)⟩

/-- C13 as stated fails: for the configured secret `""`, whose byte string is
empty, the key is not 32 zero bytes: the empty secret is replaced by the
fallback literal, and `encrypt` and `decrypt` work with the first 32 bytes of
that literal, as they do when no secret is configured. -/
theorem deriveKey_empty_secret :
    utf8Write [] = []
    ∧ deriveKey [] = List.replicate 32 0
    ∧ deriveKey (utf8Write (ENCRYPTION_KEY (some [])))
        = utf8Write (js "your-secure-encryption-key-exact")
    ∧ deriveKey (utf8Write (ENCRYPTION_KEY (some []))) ≠ List.replicate 32 0
    ∧ encrypt paddingCipher (some []) (List.replicate 16 0) (js "a")
        = .ok (toHex (List.replicate 16 0) ++ 58 :: toHex (paddingCipher.cipher
            (utf8Write (js "your-secure-encryption-key-exact")) (List.replicate 16 0)
            (utf8Write (js "a")))) :=
  ⟨rfl, by decide, by decide, by decide, rfl⟩

/-! ### C14: the verification code -/

theorem decimalDigits_lt_ten (fuel n : Nat) (acc : JSString) (h : n < 10) :
    decimalDigits (fuel + 1) n acc = (48 + n) :: acc := by
  simp [decimalDigits, h]

theorem decimalDigits_ge_ten (fuel n : Nat) (acc : JSString) (h : 10 ≤ n) :
    decimalDigits (fuel + 1) n acc = decimalDigits fuel (n / 10) ((48 + n % 10) :: acc) := by
  have : ¬ n < 10 := by omega
  simp [decimalDigits, this]

theorem numberToString_six (n : Nat) (hlo : 100000 ≤ n) (hhi : n ≤ 999999) :
    numberToString n
      = [48 + n / 100000, 48 + n / 10000 % 10, 48 + n / 1000 % 10, 48 + n / 100 % 10,
          48 + n / 10 % 10, 48 + n % 10] := by
  unfold numberToString
  obtain ⟨k, hk⟩ : ∃ k, n + 1 = k + 6 := ⟨n - 5, by omega⟩
  rw [hk, decimalDigits_ge_ten _ n _ (by omega), decimalDigits_ge_ten _ (n / 10) _ (by omega),
    decimalDigits_ge_ten _ (n / 10 / 10) _ (by omega),
    decimalDigits_ge_ten _ (n / 10 / 10 / 10) _ (by omega),
    decimalDigits_ge_ten _ (n / 10 / 10 / 10 / 10) _ (by omega),
    decimalDigits_lt_ten _ (n / 10 / 10 / 10 / 10 / 10) _ (by omega)]
  simp only [List.cons.injEq, and_true]
  omega

theorem six_digits_of_bounds (n : Nat) (hlo : 100000 ≤ n) (hhi : n ≤ 999999) :
    (numberToString n).length = 6
      ∧ (∀ u ∈ numberToString n, 48 ≤ u ∧ u ≤ 57)
      ∧ (∃ first rest, numberToString n = first :: rest ∧ 49 ≤ first ∧ first ≤ 57) := by
  rw [numberToString_six n hlo hhi]
  refine ⟨rfl, ?_, ?_⟩
  · intro u hu
    simp only [List.mem_cons, List.mem_singleton, List.not_mem_nil, or_false] at hu
    rcases hu with h | h | h | h | h | h <;> omega
  · exact ⟨48 + n / 100000, _, rfl, by omega, by omega⟩

theorem nearest_bounds (fl : ℚ → ℚ) (x y : ℚ) (h : |fl x - x| ≤ |y - x|) :
    (y ≤ x → fl x ≤ 2 * x - y) ∧ (x ≤ y → fl x ≤ y) ∧ (y ≤ x → y ≤ fl x) := by
  have h1 := abs_le.1 h
  refine ⟨fun hyx => ?_, fun hxy => ?_, fun hyx => ?_⟩
  · rw [abs_of_nonpos (by linarith)] at h1; linarith [h1.2]
  · rw [abs_of_nonneg (by linarith)] at h1; linarith [h1.2]
  · rw [abs_of_nonpos (by linarith)] at h1; linarith [h1.1]

/-- C14: for every value `r` with `0 ≤ r < 1` returned by the random source -
a double, hence at most `1 - 2^-53` - the number
`floor(100000 + r * 900000)`, as the double arithmetic computes it, each
operation rounded to a nearest double (0, 100000, 900000 - 2^-33 and
1000000 - 2^-33 being doubles), is an integer between 100000 and 999999, and
the verification code of `Signup`, that number written in decimal, is a
string of exactly 6 decimal digits whose first digit is not 0. -/
theorem verificationCode_six_digits (fl : ℚ → ℚ)
    (hfl : RoundsToNearest fl [0, 100000, 900000 - 1 / 2 ^ 33, 1000000 - 1 / 2 ^ 33])
    (r : ℚ) (h0 : 0 ≤ r) (h1 : r ≤ 1 - 1 / 2 ^ 53) :
    (∃ n : Nat, 100000 ≤ n ∧ n ≤ 999999
        ∧ ⌊fl (100000 + fl (r * 900000))⌋ = (n : Int)
        ∧ verificationCode fl r = numberToString n)
    ∧ (verificationCode fl r).length = 6
    ∧ (∀ u ∈ verificationCode fl r, 48 ≤ u ∧ u ≤ 57)
    ∧ (∃ first rest, verificationCode fl r = first :: rest ∧ 49 ≤ first ∧ first ≤ 57) := by
  have hx0 : 0 ≤ r * 900000 := by positivity
  have hx1 : r * 900000 ≤ 900000 - 900000 / 2 ^ 53 := by
    have : r * 900000 ≤ (1 - 1 / 2 ^ 53) * 900000 := by nlinarith
    linarith
  have ht0 : 0 ≤ fl (r * 900000) :=
    (nearest_bounds fl _ 0 (hfl _ 0 (by simp))).2.2 hx0
  have ht1 : fl (r * 900000) ≤ 900000 - 751424 / 2 ^ 53 := by
    have hn := nearest_bounds fl (r * 900000) (900000 - 1 / 2 ^ 33) (hfl _ _ (by simp))
    by_cases hc : 900000 - 1 / 2 ^ 33 ≤ r * 900000
    · have := hn.1 hc
      norm_num at this hx1 ⊢
      linarith
    · have := hn.2.1 (by linarith)
      norm_num at this ⊢
      linarith
  have hs0 : (100000 : ℚ) ≤ 100000 + fl (r * 900000) := by linarith
  have hu0 : (100000 : ℚ) ≤ fl (100000 + fl (r * 900000)) :=
    (nearest_bounds fl _ 100000 (hfl _ _ (by simp))).2.2 hs0
  have hu1 : fl (100000 + fl (r * 900000)) < 1000000 := by
    have hn := nearest_bounds fl (100000 + fl (r * 900000)) (1000000 - 1 / 2 ^ 33)
      (hfl _ _ (by simp))
    by_cases hc : 1000000 - 1 / 2 ^ 33 ≤ 100000 + fl (r * 900000)
    · have := hn.1 hc
      norm_num at this ht1 ⊢
      linarith
    · have := hn.2.1 (by linarith)
      norm_num at this ⊢
      linarith
  have hlo : (100000 : Int) ≤ ⌊fl (100000 + fl (r * 900000))⌋ := by
    rw [Int.le_floor]
    exact_mod_cast hu0
  have hhi : ⌊fl (100000 + fl (r * 900000))⌋ < (1000000 : Int) := by
    rw [Int.floor_lt]
    exact_mod_cast hu1
  obtain ⟨n, hn⟩ : ∃ n : Nat, ⌊fl (100000 + fl (r * 900000))⌋ = (n : Int) :=
    ⟨Int.toNat ⌊fl (100000 + fl (r * 900000))⌋, (Int.toNat_of_nonneg (by omega)).symm⟩
  have hcode : verificationCode fl r = numberToString n := by
    unfold verificationCode
    rw [hn, Int.toNat_natCast]
  have h1n : 100000 ≤ n := by omega
  have h2n : n ≤ 999999 := by omega
  rw [hcode]
  exact ⟨⟨n, h1n, h2n, hn, rfl⟩, six_digits_of_bounds n h1n h2n⟩

theorem roundToGrid_nearest (x : ℚ) (k : Int) :
    |roundToGrid x - x| ≤ |(k : ℚ) / 2 ^ 33 - x| := by
  unfold roundToGrid
  have hpos : (0 : ℚ) < 2 ^ 33 := by positivity
  have h1 : (⌊x * 2 ^ 33 + 1 / 2⌋ : ℚ) ≤ x * 2 ^ 33 + 1 / 2 := Int.floor_le _
  have h2 : x * 2 ^ 33 + 1 / 2 < (⌊x * 2 ^ 33 + 1 / 2⌋ : ℚ) + 1 := Int.lt_floor_add_one _
  have e1 : (⌊x * 2 ^ 33 + 1 / 2⌋ : ℚ) / 2 ^ 33 - x
      = ((⌊x * 2 ^ 33 + 1 / 2⌋ : ℚ) - x * 2 ^ 33) / 2 ^ 33 := by
    field_simp
    ring
  have e2 : (k : ℚ) / 2 ^ 33 - x = ((k : ℚ) - x * 2 ^ 33) / 2 ^ 33 := by
    field_simp
    ring
  rw [e1, e2, abs_div, abs_div]
  apply div_le_div_of_nonneg_right _ (abs_nonneg _)
  by_cases hk : k = ⌊x * 2 ^ 33 + 1 / 2⌋
  · rw [hk]
  · rcases lt_or_gt_of_ne hk with hlt | hgt
    · have : (k : ℚ) + 1 ≤ (⌊x * 2 ^ 33 + 1 / 2⌋ : ℚ) := by exact_mod_cast hlt
      rw [abs_le]
      constructor
      · rw [abs_of_nonpos (by linarith)]; linarith
      · rw [abs_of_nonpos (by linarith)]; linarith
    · have : (⌊x * 2 ^ 33 + 1 / 2⌋ : ℚ) + 1 ≤ (k : ℚ) := by exact_mod_cast hgt
      rw [abs_le]
      constructor
      · rw [abs_of_nonneg (by linarith)]; linarith
      · rw [abs_of_nonneg (by linarith)]; linarith

theorem roundToGrid_roundsToNearest :
    RoundsToNearest roundToGrid [0, 100000, 900000 - 1 / 2 ^ 33, 1000000 - 1 / 2 ^ 33] := by
  intro x y hy
  simp only [List.mem_cons, List.mem_singleton, List.not_mem_nil, or_false] at hy
  rcases hy with rfl | rfl | rfl | rfl
  · have := roundToGrid_nearest x 0
    simpa using this
  · have := roundToGrid_nearest x (100000 * 2 ^ 33)
    have e : ((100000 * 2 ^ 33 : Int) : ℚ) / 2 ^ 33 = 100000 := by norm_num
    rwa [e] at this
  · have := roundToGrid_nearest x (900000 * 2 ^ 33 - 1)
    have e : ((900000 * 2 ^ 33 - 1 : Int) : ℚ) / 2 ^ 33 = 900000 - 1 / 2 ^ 33 := by norm_num
    rwa [e] at this
  · have := roundToGrid_nearest x (1000000 * 2 ^ 33 - 1)
    have e : ((1000000 * 2 ^ 33 - 1 : Int) : ℚ) / 2 ^ 33 = 1000000 - 1 / 2 ^ 33 := by norm_num
    rwa [e] at this

/-- In the arithmetic of `roundToGrid` the value `0.6666666666666666` of
`Math.random()`, the double `6004799503160661 / 2^53`, gives the code
`700000`: the product is rounded up to 600000. -/
theorem verificationCode_two_thirds :
    verificationCode roundToGrid (6004799503160661 / 2 ^ 53) = js "700000" := by
  have hprod : roundToGrid ((6004799503160661 / 2 ^ 53 : ℚ) * 900000) = 600000 := by
    unfold roundToGrid
    have : ⌊(6004799503160661 / 2 ^ 53 : ℚ) * 900000 * 2 ^ 33 + 1 / 2⌋
        = (600000 * 2 ^ 33 : Int) := by
      rw [Int.floor_eq_iff]
      constructor <;> norm_num
    rw [this]
    norm_num
  have hsum : roundToGrid (100000 + 600000) = 700000 := by
    unfold roundToGrid
    have : ⌊((100000 + 600000 : ℚ)) * 2 ^ 33 + 1 / 2⌋ = (700000 * 2 ^ 33 : Int) := by
      rw [Int.floor_eq_iff]
      constructor <;> norm_num
    rw [this]
    norm_num
  unfold verificationCode
  rw [hprod, hsum]
  have : ⌊(700000 : ℚ)⌋ = (700000 : Int) := by
    rw [Int.floor_eq_iff]
    constructor <;> norm_num
  rw [this]
  decide

/-- C14, witness: the arithmetic of `roundToGrid` and the double
`0.6666666666666666`, which give the code `700000`. -/
theorem verificationCode_six_digits_witness :
    (∃ n : Nat, 100000 ≤ n ∧ n ≤ 999999
        ∧ ⌊roundToGrid (100000 + roundToGrid ((6004799503160661 / 2 ^ 53 : ℚ) * 900000))⌋
            = (n : Int)
        ∧ verificationCode roundToGrid (6004799503160661 / 2 ^ 53) = numberToString n)
    ∧ (verificationCode roundToGrid (6004799503160661 / 2 ^ 53)).length = 6
    ∧ (∀ u ∈ verificationCode roundToGrid (6004799503160661 / 2 ^ 53), 48 ≤ u ∧ u ≤ 57)
    ∧ (∃ first rest, verificationCode roundToGrid (6004799503160661 / 2 ^ 53) = first :: rest
        ∧ 49 ≤ first ∧ first ≤ 57) :=
  verificationCode_six_digits roundToGrid roundToGrid_roundsToNearest
    (6004799503160661 / 2 ^ 53) (by norm_num) (by norm_num)

/-! ### C15: saving replaces the key map -/

theorem encryptedSpec_keys_eq (lib : Lib) (randomBytes : Nat → Buffer) :
    ∀ (entries : StrObj) (calls : Nat),
      (encryptedSpec lib randomBytes entries calls).map Prod.fst
        = (entries.filter (fun e => truthy e.2 && e.1 != js "__proto__")).map Prod.fst
  | [], _ => rfl
  | (key, value) :: rest, calls => by
    unfold encryptedSpec
    by_cases hv : truthy value = true
    · by_cases hp : key = js "__proto__"
      · have hf : (truthy value && key != js "__proto__") = false := by simp [hp]
        rw [if_pos hv, if_pos hp, List.filter_cons, List.nil_append]
        simp only [hf, Bool.false_eq_true, if_false]
        exact encryptedSpec_keys_eq lib randomBytes rest (calls + 1)
      · have hf : (truthy value && key != js "__proto__") = true := by simp [hv, hp]
        rw [if_pos hv, if_neg hp, List.filter_cons]
        simp only [hf, if_true, List.singleton_append, List.map_cons]
        rw [encryptedSpec_keys_eq lib randomBytes rest (calls + 1)]
    · have hf : (truthy value && key != js "__proto__") = false := by simp [hv]
      rw [if_neg hv, List.filter_cons]
      simp only [hf, Bool.false_eq_true, if_false]
      exact encryptedSpec_keys_eq lib randomBytes rest calls

theorem lookup_isSome_iff_mem_keys (object : StrObj) (key : JSString) :
    (object.lookup key).isSome = true ↔ key ∈ object.map Prod.fst := by
  induction object with
  | nil => simp
  | cons e rest ih =>
    obtain ⟨k, v⟩ := e
    simp only [List.lookup, List.map_cons, List.mem_cons]
    by_cases hk : key = k
    · subst hk; simp
    · have hb : (key == k) = false := by simpa using hk
      simp only [hb, ih, hk, false_or]

/-- C15 (amended): `saveApiKeys` replaces the user's whole stored key map
instead of merging into it: for every previously stored map and every
submitted map (a plain object, its keys distinct) of an existing user, the
save answers 200 and the stored providers are then exactly the providers of
the submitted map, other than the key `__proto__`, that have a non-empty
value, in their order; so every provider stored before and absent from the
submitted map, or sent with an empty value, is no longer stored; and no other
field of the user and no other document changes. -/
theorem saveApiKeys_replaces (lib : Lib) (randomBytes : Nat → Buffer)
    (hr : ∀ i, (randomBytes i).length = IV_LENGTH) (caller : Caller) (db : Db)
    (apiKeys : StrObj) (hkeys : (apiKeys.map Prod.fst).Nodup) (found : User)
    (hfound : findById db.users caller.id = some found) :
    ∃ stored : StrObj,
      (saveApiKeys lib randomBytes caller db (some apiKeys)).response.status = 200
      ∧ (saveApiKeys lib randomBytes caller db (some apiKeys)).db
          = { db with users := saveUser db.users (withApiKeys found stored) }
      ∧ findById (saveApiKeys lib randomBytes caller db (some apiKeys)).db.users caller.id
          = some (withApiKeys found stored)
      ∧ stored.map Prod.fst
          = (apiKeys.filter (fun e => truthy e.2 && e.1 != js "__proto__")).map Prod.fst
      ∧ ∀ key, (jsGet stored key).isSome = true
          ↔ ∃ value, (key, value) ∈ apiKeys ∧ value ≠ [] ∧ key ≠ js "__proto__" := by
  have hid := findById_id _ _ _ hfound
  have henc := encryptEntries_eq lib randomBytes hr apiKeys 0 [] hkeys (fun k _ => by simp)
  rw [List.nil_append] at henc
  have hsave : saveApiKeys lib randomBytes caller db (some apiKeys)
      = Outcome.mk (Response.json 200 (.obj [(js "success", .bool true),
          (js "message", .str (js "API keys saved successfully"))]))
        (Db.mk (saveUser db.users (withApiKeys found (encryptedSpec lib randomBytes apiKeys 0)))
          db.chatHistories db.assignments db.favorites) [] := by
    simp only [saveApiKeys, hfound, henc, withApiKeys]
  have huid : (withApiKeys found (encryptedSpec lib randomBytes apiKeys 0)).id = caller.id := hid
  have hfind := findById_saveUser db.users
    (withApiKeys found (encryptedSpec lib randomBytes apiKeys 0)) found
    (by rw [huid]; exact hfound)
  rw [huid] at hfind
  have hk := encryptedSpec_keys_eq lib randomBytes apiKeys 0
  refine ⟨encryptedSpec lib randomBytes apiKeys 0, ?_, ?_, ?_, hk, ?_⟩
  · rw [hsave]; rfl
  · rw [hsave]
  · rw [hsave]; exact hfind
  · intro key
    unfold jsGet
    rw [lookup_isSome_iff_mem_keys, hk]
    simp only [List.mem_map, List.mem_filter, Bool.and_eq_true, bne_iff_ne, ne_eq]
    constructor
    · rintro ⟨⟨k, v⟩, ⟨hmem, hv, hp⟩, rfl⟩
      refine ⟨v, hmem, ?_, hp⟩
      rintro rfl
      simp [truthy] at hv
    · rintro ⟨v, hmem, hv, hp⟩
      refine ⟨(key, v), ⟨hmem, ?_, hp⟩, rfl⟩
      cases v with
      | nil => exact absurd rfl hv
      | cons c cs => rfl

/-- C15, witness: user 2 of the sample database saves
`{openai: "sk-abc", anthropic: ""}`. -/
theorem saveApiKeys_replaces_witness :
    ∃ stored : StrObj,
      (saveApiKeys sampleLib (fun _ => List.replicate 16 0) ⟨2, js "ada@example.com", js "user"⟩
        sampleDb (some [(js "openai", js "sk-abc"), (js "anthropic", [])])).response.status = 200
      ∧ (saveApiKeys sampleLib (fun _ => List.replicate 16 0)
          ⟨2, js "ada@example.com", js "user"⟩ sampleDb
          (some [(js "openai", js "sk-abc"), (js "anthropic", [])])).db
          = Db.mk (saveUser sampleDb.users
              (withApiKeys (sampleUser 2 "ada@example.com" "user") stored))
            sampleDb.chatHistories sampleDb.assignments sampleDb.favorites
      ∧ findById (saveApiKeys sampleLib (fun _ => List.replicate 16 0)
          ⟨2, js "ada@example.com", js "user"⟩ sampleDb
          (some [(js "openai", js "sk-abc"), (js "anthropic", [])])).db.users 2
          = some (withApiKeys (sampleUser 2 "ada@example.com" "user") stored)
      ∧ stored.map Prod.fst
          = ([(js "openai", js "sk-abc"), (js "anthropic", [])].filter
              (fun e => truthy e.2 && e.1 != js "__proto__")).map Prod.fst
      ∧ ∀ key, (jsGet stored key).isSome = true
          ↔ ∃ value, (key, value) ∈ [(js "openai", js "sk-abc"), (js "anthropic", [])]
              ∧ value ≠ [] ∧ key ≠ js "__proto__" :=
  saveApiKeys_replaces sampleLib (fun _ => List.replicate 16 0)
    (fun _ => show (List.replicate 16 0).length = IV_LENGTH by decide)
    ⟨2, js "ada@example.com", js "user"⟩ sampleDb
    [(js "openai", js "sk-abc"), (js "anthropic", [])] (by decide)
    (sampleUser 2 "ada@example.com" "user") (by decide)

/-- C15 as stated fails: user 2 of the sample database saves
`{"__proto__": "sk-abc"}`, a provider with a non-empty value, and the stored
key map is then `{}`: the assignment `encryptedKeys["__proto__"] = ...` makes
no property. -/
theorem saveApiKeys_proto_not_stored :
    (findById (saveApiKeys sampleLib (fun _ => List.replicate 16 0)
        ⟨2, js "ada@example.com", js "user"⟩ sampleDb
        (some [(js "__proto__", js "sk-abc")])).db.users 2).bind (fun u => u.apiKeys)
      = some []
    ∧ (saveApiKeys sampleLib (fun _ => List.replicate 16 0)
        ⟨2, js "ada@example.com", js "user"⟩ sampleDb
        (some [(js "__proto__", js "sk-abc")])).response.status = 200 :=
  ⟨by decide, by decide⟩

end AuthController
